import Mathlib

/-!
Shallow embedding of the agent-orchestration core of the Agentic Studio Pro
repository (a browser IDE driving a multi-stage LLM pipeline).

Definitions are translated from the sources:
* `src/App.tsx` (first variant: the per-stage handlers `runPlanner`,
  `runDesigner`, `runArchitect`, `runCoder`, `runCompiler`, `runPatcher`),
* `src/unnamed/part_002` (the v2 App: `executeCycle`, `captureSnapshot`,
  `handleRollback`, the resource-simulation interval, `ThemeLaboratory`),
* `src/unnamed/part_004` (the v3 App: `executeCycle` with plugin hooks,
  `startGeneration`, `runPluginManually`),
* `src/types.ts` and `src/geminiService.ts` (data shapes, `executePluginAgent`).

LLM requests are modelled as oracle function parameters (one field per
`geminiService` function); generated snapshot ids and `Date.now()` timestamps
are explicit arguments. The virtual file system (a JS object mapping path to
content) is an association list with JS property-write semantics: updating an
existing key keeps its position, a new key is appended, and `Object.keys`
order is the list order.
-/

/-- Agent pipeline status, from `types.ts` `AgentStatus`. -/
inductive AgentStatus where
  | idle
  | managing
  | planning
  | designing
  | architecting
  | coding
  | reviewing
  | plugging
  | compiling
  | healing
  | ready
  | error
deriving DecidableEq, Repr

/-- Planner output, `types.ts` `ProjectState.plan`. -/
structure Plan where
  features : List String
  files : List String
  dependencies : List String
deriving DecidableEq, Repr

/-- Nested `metadata` object of `types.ts` `DesignSystem`. -/
structure DesignMetadata where
  appName : String
  styleVibe : String
deriving DecidableEq, Repr

/-- Nested `colors` object of `types.ts` `DesignSystem`. -/
structure DesignColors where
  background : String
  foreground : String
  primary : String
  primaryForeground : String
  secondary : String
  accent : String
  muted : String
  border : String
deriving DecidableEq, Repr

/-- Nested `layout` object of `types.ts` `DesignSystem`. -/
structure DesignLayout where
  radius : String
  spacing : String
  container : String
deriving DecidableEq, Repr

/-- Nested `typography` object of `types.ts` `DesignSystem`. -/
structure DesignTypography where
  fontSans : String
  h1 : String
  h2 : String
  body : String
deriving DecidableEq, Repr

/-- The `types.ts` `DesignSystem` token set, by value. -/
structure DesignSystem where
  metadata : DesignMetadata
  colors : DesignColors
  layout : DesignLayout
  typography : DesignTypography
deriving DecidableEq, Repr

/-- The `types.ts` `ReviewComment` (severity and category kept as strings,
matching the JSON the service returns). -/
structure ReviewComment where
  file : String
  severity : String
  category : String
  message : String
  recommendation : String
deriving DecidableEq, Repr

/-- Per-category scores of `types.ts` `ReviewReport`. -/
structure ReviewScores where
  quality : Nat
  a11y : Nat
  performance : Nat
  design : Nat
deriving DecidableEq, Repr

/-- The `types.ts` `ReviewReport`. -/
structure ReviewReport where
  id : String
  timestamp : Nat
  overallScore : Nat
  scores : ReviewScores
  comments : List ReviewComment
deriving DecidableEq, Repr

/-- The `types.ts` `LifecycleHook` union. -/
inductive LifecycleHook where
  | postPlanning
  | postCoding
  | postAudit
  | onDemand
deriving DecidableEq, Repr

/-- The `types.ts` `NeuralPlugin`. -/
structure NeuralPlugin where
  id : String
  name : String
  description : String
  icon : String
  hook : LifecycleHook
  enabled : Bool
  author : String
deriving DecidableEq, Repr

/-- The virtual file system: `fileSystem: Record<string, string>`. -/
abbrev FS := List (String × String)

/-- The `types.ts` `ResourceMetrics` (cpu is kept exact as a rational;
memory and vfsSize pass through `Math.round`). -/
structure ResourceMetrics where
  cpu : ℚ
  memory : ℤ
  vfsSize : ℤ
  processes : List String
deriving DecidableEq, Repr

/-- The `types.ts` `HistorySnapshot`. -/
structure HistorySnapshot where
  id : String
  timestamp : Nat
  label : String
  status : AgentStatus
  fileSystem : FS
  designSystem : Option DesignSystem
  terminalLogs : List String
  reviewReport : Option ReviewReport
deriving DecidableEq, Repr

/-- The `types.ts` `ProjectState` root aggregate (purely presentational
fields such as `activeTab`, `lastSaved`, `editorViewState` and
`suggestions` are omitted: no claim mentions them). -/
structure ProjectState where
  userPrompt : String
  srs : Option String := none
  plan : Option Plan := none
  designSystem : Option DesignSystem := none
  fileSystem : FS
  currentFile : Option String := none
  status : AgentStatus
  iterationCount : Nat
  terminalLogs : List String
  resources : ResourceMetrics := ⟨0, 0, 0, []⟩
  history : List HistorySnapshot := []
  selectedHistoryId : Option String := none
  activeReview : Option ReviewReport := none
  installedPlugins : List NeuralPlugin := []
deriving DecidableEq, Repr

/-- JS object property write `fs[k] = v`: updates the existing entry in
place (keeping key order) or appends a new entry. -/
def fsSet : FS → String → String → FS
  | [], k, v => [(k, v)]
  | (k0, v0) :: rest, k, v =>
    if k0 = k then (k, v) :: rest else (k0, v0) :: fsSet rest k v

/-- JS object property read `fs[k]` (undefined becomes `none`). -/
def fsGet? (fs : FS) (k : String) : Option String :=
  (fs.find? (fun p => p.1 == k)).map (fun p => p.2)

/-- `Object.keys(fs)`, in insertion order. -/
def fsKeys (fs : FS) : List String := fs.map (fun p => p.1)

theorem fsGet?_fsSet_self (fs : FS) (k v : String) :
    fsGet? (fsSet fs k v) k = some v := by
  induction fs with
  | nil => simp [fsSet, fsGet?]
  | cons hd tl ih =>
    obtain ⟨k0, v0⟩ := hd
    by_cases h : k0 = k
    · simp [fsSet, h, fsGet?]
    · simpa [fsSet, h, fsGet?] using ih

theorem fsGet?_fsSet_ne (fs : FS) (k v k' : String) (h : k' ≠ k) :
    fsGet? (fsSet fs k v) k' = fsGet? fs k' := by
  have h2 : ¬(k = k') := fun hh => h hh.symm
  induction fs with
  | nil => simp [fsSet, fsGet?, h2]
  | cons hd tl ih =>
    obtain ⟨k0, v0⟩ := hd
    by_cases h0 : k0 = k
    · subst h0
      simp [fsSet, fsGet?, h2]
    · by_cases h1 : k0 = k'
      · subst h1
        simp [fsSet, h0, fsGet?]
      · simpa [fsSet, h0, fsGet?, h1] using ih

/-- File mutation returned by `executePluginAgent` (`geminiService.ts`
plugin response schema). -/
structure PluginMutation where
  file : String
  content : String
deriving DecidableEq, Repr

/-- Result of `executePluginAgent` (`geminiService.ts` lines 310-355). -/
structure PluginResult where
  comments : List ReviewComment
  mutations : List PluginMutation
deriving DecidableEq, Repr

/-- `result.mutations?.forEach((m) => { fs[m.file] = m.content; })`
(part_004 lines 348 and 411). -/
def applyMutations (fs : FS) (ms : List PluginMutation) : FS :=
  ms.foldl (fun acc m => fsSet acc m.file m.content) fs

theorem applyMutations_append (fs : FS) (ms ms' : List PluginMutation) :
    applyMutations fs (ms ++ ms') = applyMutations (applyMutations fs ms) ms' :=
  List.foldl_append _ _ _ _

/-- Applying a mutation list is last-writer-wins by path: the final content
at a path is the last mutation touching it, else the original content. -/
theorem fsGet?_applyMutations (fs : FS) (ms : List PluginMutation) (k : String) :
    fsGet? (applyMutations fs ms) k =
      match ms.reverse.find? (fun m => m.file == k) with
      | some m => some m.content
      | none => fsGet? fs k := by
  induction ms generalizing fs with
  | nil => simp [applyMutations]
  | cons m rest ih =>
    have hstep : applyMutations fs (m :: rest) =
        applyMutations (fsSet fs m.file m.content) rest := rfl
    rw [hstep, ih (fsSet fs m.file m.content), List.reverse_cons, List.find?_append]
    rcases h : rest.reverse.find? (fun m2 => m2.file == k) with _ | m2
    · rw [h]
      by_cases hk : m.file = k
      · subst hk
        simp [List.find?, fsGet?_fsSet_self]
      · have hbk : (m.file == k) = false := by simpa using hk
        simp [List.find?, hbk, fsGet?_fsSet_ne fs m.file m.content k (fun hh => hk hh.symm)]
    · rw [h]
      simp

/-- Log line emitted before each post-coding plugin runs (part_004 line 407). -/
def lifecycleLog (p : NeuralPlugin) : String :=
  "> Lifecycle Hook: " ++ p.name ++ " executing..."

/-- Log line emitted before each post-audit plugin runs (part_004 line 424). -/
def auditLog (p : NeuralPlugin) : String :=
  "> Audit Hook: " ++ p.name ++ " running..."

/-- Body of the `for (const p of codingPlugins)` loop of part_004
`executeCycle` (lines 406-414): log, call `executePluginAgent` against the
stale `project.fileSystem` captured by the effect closure, merge the
returned mutations into the accumulated file system. The third component
records, in order, the plugins actually passed to `executePluginAgent`
(instrumentation used only to state call counts). -/
def runPostCodingLoop (po : NeuralPlugin → FS → DesignSystem → PluginResult)
    (staleFs : FS) (design : DesignSystem) :
    List NeuralPlugin → FS → List String → FS × List String × List NeuralPlugin
  | [], fs, logs => (fs, logs, [])
  | p :: rest, fs, logs =>
    let result := po p staleFs design
    let out := runPostCodingLoop po staleFs design rest
      (applyMutations fs result.mutations) (logs ++ [lifecycleLog p])
    (out.1, out.2.1, p :: out.2.2)

/-- The post-coding hook block of part_004 `executeCycle` (lines 404-416):
exactly the installed plugins that are enabled and register `post-coding`
run, sequentially in list order. -/
def postCodingHook (po : NeuralPlugin → FS → DesignSystem → PluginResult)
    (plugins : List NeuralPlugin) (staleFs : FS) (design : DesignSystem)
    (fs0 : FS) (logs0 : List String) : FS × List String × List NeuralPlugin :=
  runPostCodingLoop po staleFs design
    (plugins.filter (fun p => p.enabled && p.hook == LifecycleHook.postCoding)) fs0 logs0

/-- Body of the `for (const p of auditPlugins)` loop of part_004
`executeCycle` (lines 423-427): log, call the plugin, append its comments
to the review comment list. -/
def runPostAuditLoop (po : NeuralPlugin → FS → DesignSystem → PluginResult)
    (staleFs : FS) (design : DesignSystem) :
    List NeuralPlugin → List ReviewComment → List String →
      List ReviewComment × List String × List NeuralPlugin
  | [], cs, logs => (cs, logs, [])
  | p :: rest, cs, logs =>
    let result := po p staleFs design
    let out := runPostAuditLoop po staleFs design rest
      (cs ++ result.comments) (logs ++ [auditLog p])
    (out.1, out.2.1, p :: out.2.2)

/-- The post-audit hook block of part_004 `executeCycle` (lines 421-429). -/
def postAuditHook (po : NeuralPlugin → FS → DesignSystem → PluginResult)
    (plugins : List NeuralPlugin) (staleFs : FS) (design : DesignSystem)
    (cs0 : List ReviewComment) (logs0 : List String) :
    List ReviewComment × List String × List NeuralPlugin :=
  runPostAuditLoop po staleFs design
    (plugins.filter (fun p => p.enabled && p.hook == LifecycleHook.postAudit)) cs0 logs0

theorem runPostCodingLoop_spec (po : NeuralPlugin → FS → DesignSystem → PluginResult)
    (staleFs : FS) (design : DesignSystem) (l : List NeuralPlugin)
    (fs : FS) (logs : List String) :
    runPostCodingLoop po staleFs design l fs logs =
      (applyMutations fs (l.flatMap (fun p => (po p staleFs design).mutations)),
       logs ++ l.map lifecycleLog, l) := by
  induction l generalizing fs logs with
  | nil => simp [runPostCodingLoop, applyMutations]
  | cons p rest ih =>
    simp [runPostCodingLoop, ih, applyMutations_append]

theorem runPostAuditLoop_spec (po : NeuralPlugin → FS → DesignSystem → PluginResult)
    (staleFs : FS) (design : DesignSystem) (l : List NeuralPlugin)
    (cs : List ReviewComment) (logs : List String) :
    runPostAuditLoop po staleFs design l cs logs =
      (cs ++ l.flatMap (fun p => (po p staleFs design).comments),
       logs ++ l.map auditLog, l) := by
  induction l generalizing cs logs with
  | nil => simp [runPostAuditLoop]
  | cons p rest ih =>
    simp [runPostAuditLoop, ih]

/-- Responses of the `geminiService.ts` request functions, as a
deterministic total oracle (one field per service function, used for runs in
which every request resolves), plus the generated snapshot ids and
`Date.now()` values, indexed by invocation. -/
structure Oracle where
  manager : String → String
  planner : String → Plan
  designer : String → List String → DesignSystem
  coder : String → Plan → DesignSystem → FS → String
  reviewer : FS → DesignSystem → ReviewReport
  plugin : NeuralPlugin → FS → DesignSystem → PluginResult
  patcher : String → String → String → String
  genId : Nat → String
  now : Nat → Nat

/-- Placeholder standing for the value flowing out of the TS non-null
assertion `project.plan!` in branches the pipeline only reaches after the
plan is set. -/
def emptyPlan : Plan := ⟨[], [], []⟩

/-- Placeholder standing for the value flowing out of the TS non-null
assertion `project.designSystem!` in branches the pipeline only reaches
after the design system is set. -/
def emptyDesign : DesignSystem :=
  ⟨⟨"", ""⟩, ⟨"", "", "", "", "", "", "", ""⟩, ⟨"", "", ""⟩, ⟨"", "", "", ""⟩⟩

/-- `captureSnapshot(label)` (part_002 lines 456-471, part_004 lines
314-328): appends a top-level copy of the current state to `history` and
never replaces entries; `gid` and `ts` stand for the generated random id
and `Date.now()`. -/
def captureSnapshot (gid : String) (ts : Nat) (label : String) (s : ProjectState) :
    ProjectState :=
  { s with history := s.history ++
      [{ id := gid, timestamp := ts, label := label, status := s.status,
         fileSystem := s.fileSystem, designSystem := s.designSystem,
         terminalLogs := s.terminalLogs, reviewReport := s.activeReview }] }

/-- The sequential per-file coding loop of `executeCycle` (part_002 lines
590-598, part_004 lines 397-402): sets `currentFile`, calls the coder with
the stale `project.fileSystem` from the effect closure, and writes the
returned code into the accumulated file system, one file at a time. -/
def codeFilesLoop (coder : String → Plan → DesignSystem → FS → String)
    (plan : Plan) (design : DesignSystem) (staleFs : FS) :
    List String → FS → Option String → FS × Option String
  | [], fs, cur => (fs, cur)
  | f :: rest, fs, _ =>
    codeFilesLoop coder plan design staleFs rest
      (fsSet fs f (coder f plan design staleFs)) (some f)

/-- `startGeneration` of part_004 (lines 364-374): rejects an empty prompt,
then moves to `managing` clearing the file system and the active review
(history is NOT reset in this variant). -/
def startGeneration4 (input : String) (s : ProjectState) : ProjectState :=
  if input = "" then s
  else
    { s with
      userPrompt := input, status := AgentStatus.managing, fileSystem := [],
      terminalLogs := s.terminalLogs ++ ["> New Project: \"" ++ input ++ "\""],
      activeReview := none }

/-- One reaction of the part_004 `executeCycle` status watcher (lines
376-437), for the status the effect fired on. In the `compiling` branch the
snapshot is captured before the 800 ms timeout flips the status, so the
snapshot records the `compiling` state; `k` indexes the oracle id and
timestamp generators. -/
def executeCycle4 (o : Oracle) (k : Nat) (s : ProjectState) : ProjectState :=
  match s.status with
  | AgentStatus.managing =>
    { s with srs := some (o.manager s.userPrompt), status := AgentStatus.planning }
  | AgentStatus.planning =>
    { s with plan := some (o.planner (s.srs.getD "")), status := AgentStatus.designing }
  | AgentStatus.designing =>
    { s with
      designSystem := some (o.designer s.userPrompt (s.plan.getD emptyPlan).features),
      status := AgentStatus.architecting }
  | AgentStatus.architecting =>
    { s with
      fileSystem := (s.plan.getD emptyPlan).files.foldl
        (fun fs f => fsSet fs f "// Initializing...") [],
      status := AgentStatus.coding }
  | AgentStatus.coding =>
    let plan := s.plan.getD emptyPlan
    let design := s.designSystem.getD emptyDesign
    let coded := codeFilesLoop o.coder plan design s.fileSystem (fsKeys s.fileSystem)
      s.fileSystem s.currentFile
    let hooked := postCodingHook o.plugin s.installedPlugins s.fileSystem design
      coded.1 s.terminalLogs
    { s with
      fileSystem := hooked.1, terminalLogs := hooked.2.1,
      currentFile := coded.2, status := AgentStatus.reviewing }
  | AgentStatus.reviewing =>
    let design := s.designSystem.getD emptyDesign
    let review := o.reviewer s.fileSystem design
    let hooked := postAuditHook o.plugin s.installedPlugins s.fileSystem design
      review.comments s.terminalLogs
    { s with
      activeReview := some { review with comments := hooked.1 },
      terminalLogs := hooked.2.1, status := AgentStatus.compiling }
  | AgentStatus.compiling =>
    { captureSnapshot (o.genId k) (o.now k) "Neural Deployment Ready" s with
      status := AgentStatus.ready }
  | _ => s

/-- Iterated part_004 watcher reactions: each fired effect advances one
stage; `k` threads the id and timestamp generator index. -/
def runCycle4 (o : Oracle) : Nat → Nat → ProjectState → ProjectState
  | _, 0, s => s
  | k, n + 1, s => runCycle4 o (k + 1) n (executeCycle4 o k s)

/-- `input.trim()` modelled on the character list (same whitespace set,
kernel-computable unlike `String.trim`). -/
def jsTrim (s : String) : String :=
  ⟨((s.data.dropWhile Char.isWhitespace).reverse.dropWhile Char.isWhitespace).reverse⟩

/-- `startGeneration` of part_002 (lines 541-563). The source object
literal repeats several keys (and in fact is missing a comma, a syntax
slip); JS object-literal semantics is last-entry-wins, which yields:
prompt kept untrimmed, status `managing`, plan and design cleared, file
system, history and review reset, the single `> Project Intent` log line. -/
def startGeneration2 (input : String) (s : ProjectState) : ProjectState :=
  if jsTrim input = "" then s
  else
    { s with
      userPrompt := input, plan := none, designSystem := none,
      status := AgentStatus.managing, fileSystem := [],
      iterationCount := 0, currentFile := none,
      terminalLogs := s.terminalLogs ++ ["> Project Intent: \"" ++ input ++ "\""],
      history := [], selectedHistoryId := none, activeReview := none }

/-- One reaction of the part_002 `executeCycle` status watcher (lines
565-620): the same stage chain as part_004, but without plugin hooks and
with one labeled `captureSnapshot` at the completion of every stage. In
this variant the `compiling` branch captures its snapshot after the status
flip to `ready`. -/
def executeCycle2 (o : Oracle) (k : Nat) (s : ProjectState) : ProjectState :=
  match s.status with
  | AgentStatus.managing =>
    captureSnapshot (o.genId k) (o.now k) "SRS Created"
      { s with srs := some (o.manager s.userPrompt), status := AgentStatus.planning }
  | AgentStatus.planning =>
    captureSnapshot (o.genId k) (o.now k) "Plan Finalized"
      { s with plan := some (o.planner (s.srs.getD "")), status := AgentStatus.designing }
  | AgentStatus.designing =>
    captureSnapshot (o.genId k) (o.now k) "Design Seeded"
      { s with
        designSystem := some (o.designer s.userPrompt (s.plan.getD emptyPlan).features),
        status := AgentStatus.architecting }
  | AgentStatus.architecting =>
    captureSnapshot (o.genId k) (o.now k) "FS Scaffolding"
      { s with
        fileSystem := (s.plan.getD emptyPlan).files.foldl
          (fun fs f => fsSet fs f "// Initializing...") [],
        status := AgentStatus.coding }
  | AgentStatus.coding =>
    let plan := s.plan.getD emptyPlan
    let design := s.designSystem.getD emptyDesign
    let coded := codeFilesLoop o.coder plan design s.fileSystem (fsKeys s.fileSystem)
      s.fileSystem s.currentFile
    captureSnapshot (o.genId k) (o.now k) "Implementation Complete"
      { s with
        fileSystem := coded.1, currentFile := coded.2, status := AgentStatus.reviewing }
  | AgentStatus.reviewing =>
    let design := s.designSystem.getD emptyDesign
    let review := o.reviewer s.fileSystem design
    captureSnapshot (o.genId k) (o.now k) "Neural Audit Complete"
      { s with
        terminalLogs := s.terminalLogs ++ ["> Running Neural Auditor..."],
        activeReview := some review, status := AgentStatus.compiling }
  | AgentStatus.compiling =>
    captureSnapshot (o.genId k) (o.now k) "Ready for Deployment"
      { s with status := AgentStatus.ready }
  | _ => s

/-- Iterated part_002 watcher reactions. -/
def runCycle2 (o : Oracle) : Nat → Nat → ProjectState → ProjectState
  | _, 0, s => s
  | k, n + 1, s => runCycle2 o (k + 1) n (executeCycle2 o k s)

/-- The status each watcher reaction moves to: both `executeCycle` variants
advance the same chain; statuses without a handler are left unchanged. -/
def nextStage : AgentStatus → AgentStatus
  | AgentStatus.managing => AgentStatus.planning
  | AgentStatus.planning => AgentStatus.designing
  | AgentStatus.designing => AgentStatus.architecting
  | AgentStatus.architecting => AgentStatus.coding
  | AgentStatus.coding => AgentStatus.reviewing
  | AgentStatus.reviewing => AgentStatus.compiling
  | AgentStatus.compiling => AgentStatus.ready
  | st => st

/-- Iterated `nextStage`. -/
def stageIter : Nat → AgentStatus → AgentStatus
  | 0, st => st
  | n + 1, st => stageIter n (nextStage st)

/-- Labels of the snapshots one part_004 watcher reaction appends. -/
def stageLabels4 : AgentStatus → List String
  | AgentStatus.compiling => ["Neural Deployment Ready"]
  | _ => []

/-- Labels of the snapshots one part_002 watcher reaction appends. -/
def stageLabels2 : AgentStatus → List String
  | AgentStatus.managing => ["SRS Created"]
  | AgentStatus.planning => ["Plan Finalized"]
  | AgentStatus.designing => ["Design Seeded"]
  | AgentStatus.architecting => ["FS Scaffolding"]
  | AgentStatus.coding => ["Implementation Complete"]
  | AgentStatus.reviewing => ["Neural Audit Complete"]
  | AgentStatus.compiling => ["Ready for Deployment"]
  | _ => []

/-- Accumulated snapshot labels over `n` watcher reactions. -/
def labelsAccum (f : AgentStatus → List String) : Nat → AgentStatus → List String
  | 0, _ => []
  | n + 1, st => f st ++ labelsAccum f n (nextStage st)

theorem executeCycle4_status (o : Oracle) (k : Nat) (s : ProjectState) :
    (executeCycle4 o k s).status = nextStage s.status := by
  rcases s with ⟨up, srs, plan, ds, fs, cf, st, it, logs, res, hist, sel, ar, ip⟩
  cases st <;> rfl

theorem executeCycle2_status (o : Oracle) (k : Nat) (s : ProjectState) :
    (executeCycle2 o k s).status = nextStage s.status := by
  rcases s with ⟨up, srs, plan, ds, fs, cf, st, it, logs, res, hist, sel, ar, ip⟩
  cases st <;> rfl

theorem executeCycle4_labels (o : Oracle) (k : Nat) (s : ProjectState) :
    (executeCycle4 o k s).history.map (fun sn => sn.label) =
      s.history.map (fun sn => sn.label) ++ stageLabels4 s.status := by
  rcases s with ⟨up, srs, plan, ds, fs, cf, st, it, logs, res, hist, sel, ar, ip⟩
  cases st <;> simp [executeCycle4, captureSnapshot, stageLabels4]

theorem executeCycle2_labels (o : Oracle) (k : Nat) (s : ProjectState) :
    (executeCycle2 o k s).history.map (fun sn => sn.label) =
      s.history.map (fun sn => sn.label) ++ stageLabels2 s.status := by
  rcases s with ⟨up, srs, plan, ds, fs, cf, st, it, logs, res, hist, sel, ar, ip⟩
  cases st <;> simp [executeCycle2, captureSnapshot, stageLabels2]

theorem runCycle4_status (o : Oracle) (k n : Nat) (s : ProjectState) :
    (runCycle4 o k n s).status = stageIter n s.status := by
  induction n generalizing k s with
  | zero => rfl
  | succ n ih =>
    show (runCycle4 o (k + 1) n (executeCycle4 o k s)).status = _
    rw [ih, executeCycle4_status]
    rfl

theorem runCycle2_status (o : Oracle) (k n : Nat) (s : ProjectState) :
    (runCycle2 o k n s).status = stageIter n s.status := by
  induction n generalizing k s with
  | zero => rfl
  | succ n ih =>
    show (runCycle2 o (k + 1) n (executeCycle2 o k s)).status = _
    rw [ih, executeCycle2_status]
    rfl

theorem runCycle4_labels (o : Oracle) (k n : Nat) (s : ProjectState) :
    (runCycle4 o k n s).history.map (fun sn => sn.label) =
      s.history.map (fun sn => sn.label) ++ labelsAccum stageLabels4 n s.status := by
  induction n generalizing k s with
  | zero => simp [runCycle4, labelsAccum]
  | succ n ih =>
    show (runCycle4 o (k + 1) n (executeCycle4 o k s)).history.map _ = _
    rw [ih, executeCycle4_labels, executeCycle4_status]
    simp [labelsAccum]

theorem runCycle2_labels (o : Oracle) (k n : Nat) (s : ProjectState) :
    (runCycle2 o k n s).history.map (fun sn => sn.label) =
      s.history.map (fun sn => sn.label) ++ labelsAccum stageLabels2 n s.status := by
  induction n generalizing k s with
  | zero => simp [runCycle2, labelsAccum]
  | succ n ih =>
    show (runCycle2 o (k + 1) n (executeCycle2 o k s)).history.map _ = _
    rw [ih, executeCycle2_labels, executeCycle2_status]
    simp [labelsAccum]

/-- The part_004 `DEFAULT_PLUGINS` (lines 71-75). -/
def defaultPlugins : List NeuralPlugin :=
  [{ id := "shield-6", name := "Shield-6",
     description := "Advanced security auditor. Checks for hardcoded keys and XSS vulnerabilities.",
     icon := "Shield", hook := LifecycleHook.postAudit, enabled := false,
     author := "Sentinel Labs" },
   { id := "scribe-seo", name := "Scribe SEO",
     description := "SEO optimization agent. Validates semantic HTML, meta tags, and alt text.",
     icon := "Globe", hook := LifecycleHook.postCoding, enabled := false,
     author := "Organic Reach Inc." },
   { id := "pulse-test", name := "Pulse Test",
     description := "Automatic test generator. Creates Vitest unit tests for components.",
     icon := "FlaskConical", hook := LifecycleHook.onDemand, enabled := false,
     author := "QA Swarm" }]

/-- The part_004 default project state (lines 287-305). -/
def default4 : ProjectState :=
  { userPrompt := "", srs := none, plan := none, designSystem := none,
    fileSystem := [], currentFile := none, status := AgentStatus.idle,
    iterationCount := 0, terminalLogs := ["Neural orchestrator online."],
    resources := ⟨0, 0, 0, []⟩, history := [], selectedHistoryId := none,
    activeReview := none, installedPlugins := defaultPlugins }

/-- Concrete design system used by witnesses. -/
def exDesign : DesignSystem :=
  ⟨⟨"Todo", "Modern"⟩,
   ⟨"#0f172a", "#f8fafc", "#2563eb", "#ffffff", "#64748b", "#22d3ee", "#94a3b8", "#e2e8f0"⟩,
   ⟨"8px", "4px", "1200px"⟩,
   ⟨"Inter", "2rem", "1.5rem", "1rem"⟩⟩

/-- Concrete plan used by witnesses. -/
def exPlan : Plan := ⟨["list tasks"], ["src/App.tsx", "src/lib/mockData.ts"], []⟩

/-- Concrete review report used by witnesses. -/
def exReport : ReviewReport := ⟨"rev-1", 0, 90, ⟨90, 90, 90, 90⟩, []⟩

/-- Concrete total oracle used by witnesses. -/
def exOracle : Oracle :=
  { manager := fun _ => "srs text",
    planner := fun _ => exPlan,
    designer := fun _ _ => exDesign,
    coder := fun f _ _ _ => "// code for " ++ f,
    reviewer := fun _ _ => exReport,
    plugin := fun _ _ _ => ⟨[], []⟩,
    patcher := fun _ _ _ => "patched",
    genId := fun k => "snap-" ++ toString k,
    now := fun k => k }

/-- C1: for every valid (non-empty) prompt, invoking Run (the part_004
`startGeneration`) from status `idle` or `ready` drives the status through
managing, planning, designing, architecting, coding, reviewing, compiling,
ready in that exact order, with no stage skipped: neither `executeCycle`
variant has a failure branch, so no simulated failure can occur. -/
theorem C1_pipeline_order (o : Oracle) (input : String) (s : ProjectState)
    (hin : input ≠ "")
    (hst : s.status = AgentStatus.idle ∨ s.status = AgentStatus.ready) :
    [(startGeneration4 input s).status,
     (runCycle4 o 0 1 (startGeneration4 input s)).status,
     (runCycle4 o 0 2 (startGeneration4 input s)).status,
     (runCycle4 o 0 3 (startGeneration4 input s)).status,
     (runCycle4 o 0 4 (startGeneration4 input s)).status,
     (runCycle4 o 0 5 (startGeneration4 input s)).status,
     (runCycle4 o 0 6 (startGeneration4 input s)).status,
     (runCycle4 o 0 7 (startGeneration4 input s)).status] =
    [AgentStatus.managing, AgentStatus.planning, AgentStatus.designing,
     AgentStatus.architecting, AgentStatus.coding, AgentStatus.reviewing,
     AgentStatus.compiling, AgentStatus.ready] := by
  have h0 : (startGeneration4 input s).status = AgentStatus.managing := by
    simp [startGeneration4, hin]
  simp only [runCycle4_status, h0]
  decide

/-- Witness for C1 at a concrete oracle, prompt and the default state. -/
theorem C1_pipeline_order_witness :
    ("todo app" ≠ "" ∧
      (default4.status = AgentStatus.idle ∨ default4.status = AgentStatus.ready)) ∧
    [(startGeneration4 "todo app" default4).status,
     (runCycle4 exOracle 0 1 (startGeneration4 "todo app" default4)).status,
     (runCycle4 exOracle 0 2 (startGeneration4 "todo app" default4)).status,
     (runCycle4 exOracle 0 3 (startGeneration4 "todo app" default4)).status,
     (runCycle4 exOracle 0 4 (startGeneration4 "todo app" default4)).status,
     (runCycle4 exOracle 0 5 (startGeneration4 "todo app" default4)).status,
     (runCycle4 exOracle 0 6 (startGeneration4 "todo app" default4)).status,
     (runCycle4 exOracle 0 7 (startGeneration4 "todo app" default4)).status] =
    [AgentStatus.managing, AgentStatus.planning, AgentStatus.designing,
     AgentStatus.architecting, AgentStatus.coding, AgentStatus.reviewing,
     AgentStatus.compiling, AgentStatus.ready] :=
  ⟨⟨by decide, Or.inl rfl⟩,
   C1_pipeline_order exOracle "todo app" default4 (by decide) (Or.inl rfl)⟩

/-- C7 (amended): in the part_002 variant each of the seven stage handlers
captures exactly one labeled snapshot when it completes (at the transition
out of the stage), so a successful run, whose start resets `history`, ends
with exactly the seven milestone labels in order; in the part_004 variant
only the `compiling` handler captures a snapshot, so a successful run
appends exactly one snapshot. No snapshot is captured on entering
`managing`, and the capture of the `compiling` handler accompanies the
transition into `ready`. -/
theorem C7_milestone_snapshots (o : Oracle) (input : String) (s2 s4 : ProjectState)
    (h2 : jsTrim input ≠ "") (h4 : input ≠ "") :
    (runCycle2 o 0 7 (startGeneration2 input s2)).history.map (fun sn => sn.label) =
      ["SRS Created", "Plan Finalized", "Design Seeded", "FS Scaffolding",
       "Implementation Complete", "Neural Audit Complete", "Ready for Deployment"] ∧
    (runCycle2 o 0 7 (startGeneration2 input s2)).status = AgentStatus.ready ∧
    (runCycle4 o 0 7 (startGeneration4 input s4)).history.map (fun sn => sn.label) =
      s4.history.map (fun sn => sn.label) ++ ["Neural Deployment Ready"] ∧
    (runCycle4 o 0 7 (startGeneration4 input s4)).status = AgentStatus.ready := by
  have h0 : (startGeneration2 input s2).status = AgentStatus.managing := by
    simp [startGeneration2, h2]
  have h0h : (startGeneration2 input s2).history = [] := by
    simp [startGeneration2, h2]
  have h1 : (startGeneration4 input s4).status = AgentStatus.managing := by
    simp [startGeneration4, h4]
  have h1h : (startGeneration4 input s4).history = s4.history := by
    simp [startGeneration4, h4]
  have hacc4 : labelsAccum stageLabels4 7 AgentStatus.managing =
      ["Neural Deployment Ready"] := rfl
  refine ⟨?_, ?_, ?_, ?_⟩
  · rw [runCycle2_labels, h0, h0h]
    rfl
  · rw [runCycle2_status, h0]
    rfl
  · rw [runCycle4_labels, h1, h1h, hacc4]
  · rw [runCycle4_status, h1]
    rfl

/-- Witness for the amended C7 at a concrete oracle, prompt and states. -/
theorem C7_milestone_snapshots_witness :
    (jsTrim "todo app" ≠ "" ∧ "todo app" ≠ "") ∧
    (runCycle2 exOracle 0 7 (startGeneration2 "todo app" default4)).history.map
        (fun sn => sn.label) =
      ["SRS Created", "Plan Finalized", "Design Seeded", "FS Scaffolding",
       "Implementation Complete", "Neural Audit Complete", "Ready for Deployment"] :=
  ⟨⟨by decide, by decide⟩,
   (C7_milestone_snapshots exOracle "todo app" default4 default4
     (by decide) (by decide)).1⟩

/-- C7 counterexample: a full successful part_004 run captures exactly one
snapshot, not one per milestone transition (seven): no snapshot accompanies
the transitions into managing, planning, designing, architecting, coding or
reviewing in that variant. -/
theorem C7_counterexample :
    (runCycle4 exOracle 0 7 (startGeneration4 "todo app" default4)).status =
      AgentStatus.ready ∧
    (runCycle4 exOracle 0 7 (startGeneration4 "todo app" default4)).history.length = 1 ∧
    (1 : Nat) ≠ 7 := by
  have hne : ¬("todo app" = "") := by decide
  have h1 : (startGeneration4 "todo app" default4).status = AgentStatus.managing := by
    simp [startGeneration4, hne]
  have hh : (startGeneration4 "todo app" default4).history = [] := by
    simp [startGeneration4, hne, default4]
  refine ⟨?_, ?_, by decide⟩
  · rw [runCycle4_status, h1]
    rfl
  · have hlen := runCycle4_labels exOracle 0 7 (startGeneration4 "todo app" default4)
    rw [h1, hh] at hlen
    have hacc : labelsAccum stageLabels4 7 AgentStatus.managing =
        ["Neural Deployment Ready"] := rfl
    rw [hacc] at hlen
    have hlen2 := congrArg List.length hlen
    simpa using hlen2

/-- Fallible oracle: each `geminiService` request may reject; the error
carries the thrown message. -/
structure ExcOracle where
  manager : String → Except String String
  planner : String → Except String Plan
  designer : String → List String → Except String DesignSystem
  coder : String → Plan → DesignSystem → FS → Except String String
  reviewer : FS → DesignSystem → Except String ReviewReport
  plugin : NeuralPlugin → FS → DesignSystem → Except String PluginResult
  patcher : String → String → String → Except String String
  genId : Nat → String
  now : Nat → Nat

/-- The catch-block log line `Error in <stage>: <err>` of the App.tsx
per-stage handlers. -/
def errMsg (stage msg : String) : String := "Error in " ++ stage ++ ": " ++ msg

/-- `runPlanner` of App.tsx (lines 279-289): pre-log, planner request; on a
rejection the catch sets `status = error` and appends an error log line. -/
def runPlanner (o : ExcOracle) (s : ProjectState) : ProjectState :=
  let s1 := { s with terminalLogs := s.terminalLogs ++
    ["Planner: Analyzing intent and creating engineering blueprint..."] }
  match o.planner s.userPrompt with
  | Except.error e =>
    { s1 with
      status := AgentStatus.error,
      terminalLogs := s1.terminalLogs ++ [errMsg "Planner" e] }
  | Except.ok plan =>
    { s1 with
      plan := some plan, status := AgentStatus.designing,
      terminalLogs := s1.terminalLogs ++
        ["Planner: Successfully drafted plan with " ++ toString plan.files.length ++
          " files."] }

/-- `runDesigner` of App.tsx (lines 291-302); the guard `if (!project.plan)
return` makes it a silent no-op without a plan. -/
def runDesigner (o : ExcOracle) (s : ProjectState) : ProjectState :=
  match s.plan with
  | none => s
  | some plan =>
    let s1 := { s with terminalLogs := s.terminalLogs ++
      ["Designer: Establishing design tokens and accessibility compliance..."] }
    match o.designer s.userPrompt plan.features with
    | Except.error e =>
      { s1 with
        status := AgentStatus.error,
        terminalLogs := s1.terminalLogs ++ [errMsg "Designer" e] }
    | Except.ok design =>
      { s1 with
        designSystem := some design, status := AgentStatus.architecting,
        terminalLogs := s1.terminalLogs ++
          ["Designer: Generated theme.json for \"" ++ design.metadata.appName ++
            "\" (" ++ design.metadata.styleVibe ++ " vibe)."] }

/-- `runArchitect` of App.tsx (lines 304-316): no request is made, so the
try block cannot reject; without a plan it is a silent no-op. -/
def runArchitect (s : ProjectState) : ProjectState :=
  match s.plan with
  | none => s
  | some plan =>
    { s with
      terminalLogs := s.terminalLogs ++
        ["Architect: Scaffolding virtual file system and installing dependencies...",
         "Architect: Files scaffolded. Ready for senior coder."],
      fileSystem := plan.files.foldl
        (fun fs f => fsSet fs f "// Generating content...") [],
      status := AgentStatus.coding }

/-- The per-file loop of App.tsx `runCoder` (lines 321-331) with a fallible
coder: accumulates the file system, the `currentFile` cursor and the
per-file log lines, stopping at the first rejected request. -/
def codeLoopExcV1 (coder : String → Plan → DesignSystem → FS → Except String String)
    (plan : Plan) (design : DesignSystem) (staleFs : FS) :
    List String → FS → Option String → List String →
      FS × Option String × List String × Option String
  | [], fs, cur, logs => (fs, cur, logs, none)
  | f :: rest, fs, _, logs =>
    let logs1 := logs ++ ["Coder: Implementing " ++ f ++ "..."]
    match coder f plan design staleFs with
    | Except.error e => (fs, some f, logs1, some e)
    | Except.ok code =>
      codeLoopExcV1 coder plan design staleFs rest (fsSet fs f code) (some f) logs1

/-- `runCoder` of App.tsx (lines 318-339): guards on plan and designSystem,
codes the files sequentially against the stale closure file system, then
moves to `compiling` with `currentFile` reset to the first file; a rejected
request is caught, setting `status = error`. -/
def runCoder (o : ExcOracle) (s : ProjectState) : ProjectState :=
  match s.plan, s.designSystem with
  | some plan, some design =>
    let files := fsKeys s.fileSystem
    match codeLoopExcV1 o.coder plan design s.fileSystem files
      s.fileSystem s.currentFile s.terminalLogs with
    | (fs1, cur1, logs1, some e) =>
      { s with
        fileSystem := fs1, currentFile := cur1,
        status := AgentStatus.error, terminalLogs := logs1 ++ [errMsg "Coder" e] }
    | (fs1, _, logs1, none) =>
      { s with
        fileSystem := fs1, currentFile := files.head?,
        status := AgentStatus.compiling,
        terminalLogs := logs1 ++ ["Coder: All modules implemented. Triggering build..."] }
  | _, _ => s

/-- Log lines of App.tsx `runCompiler` and `runPatcher` (quotes that the
originals place around npm run build and ./components/OldButton are
elided). -/
def compilerStartLog : String :=
  "Compiler: Running npm run build in WebContainer sandbox..."

def compilerFailLog : String :=
  "Compiler Error: Module not found. ReferenceError: ./components/OldButton is not defined."

def compilerOkLog : String :=
  "Compiler Success: Build complete. Assets optimized."

def patcherStartLog : String :=
  "Patcher: Analyzing stderr logs. Performing surgical fix..."

def patchErrorText : String :=
  "ReferenceError: ./components/OldButton is not defined."

/-- `runCompiler` of App.tsx (lines 341-361): after the simulated delay,
the injected failure fires exactly when the `Math.random()` draw is below
0.3 AND `iterationCount < 1`; on failure the status goes to `healing`,
otherwise to `ready`. -/
def runCompiler (rand : ℚ) (s : ProjectState) : ProjectState :=
  let s1 := { s with terminalLogs := s.terminalLogs ++ [compilerStartLog] }
  if rand < 3 / 10 ∧ s.iterationCount < 1 then
    { s1 with
      status := AgentStatus.healing,
      terminalLogs := s1.terminalLogs ++ [compilerFailLog] }
  else
    { s1 with
      status := AgentStatus.ready,
      terminalLogs := s1.terminalLogs ++ [compilerOkLog] }

/-- `runPatcher` of App.tsx (lines 363-381): patches the fixed mock failing
file `src/App.tsx` (an absent entry reads as the empty string here, where
the JS passes `undefined` through), returns to `compiling` and increments
`iterationCount`; a rejected request is caught, setting `status = error`. -/
def runPatcher (o : ExcOracle) (s : ProjectState) : ProjectState :=
  let s1 := { s with terminalLogs := s.terminalLogs ++ [patcherStartLog] }
  match o.patcher "src/App.tsx" ((fsGet? s.fileSystem "src/App.tsx").getD "")
    patchErrorText with
  | Except.error e =>
    { s1 with
      status := AgentStatus.error,
      terminalLogs := s1.terminalLogs ++ [errMsg "Patcher" e] }
  | Except.ok patch =>
    { s1 with
      fileSystem := fsSet s1.fileSystem "src/App.tsx" patch,
      status := AgentStatus.compiling, iterationCount := s.iterationCount + 1,
      terminalLogs := s1.terminalLogs ++
        ["Patcher: Applied mutations to src/App.tsx. Retrying build."] }

/-- The App.tsx status watcher (lines 383-390): exactly one handler fires
per status change; `rand` models the compiler `Math.random()` draw. -/
def appStep (o : ExcOracle) (rand : ℚ) (s : ProjectState) : ProjectState :=
  match s.status with
  | AgentStatus.planning => runPlanner o s
  | AgentStatus.designing => runDesigner o s
  | AgentStatus.architecting => runArchitect s
  | AgentStatus.coding => runCoder o s
  | AgentStatus.compiling => runCompiler rand s
  | AgentStatus.healing => runPatcher o s
  | _ => s

/-- C2: from `compiling` with `iterationCount = 0` and the failure draw
forced below the 0.3 threshold, the run visits `healing`, returns to
`compiling` with `iterationCount = 1`, then reaches `ready` regardless of
the next draw; and with `iterationCount` at least 1 no watcher reaction can
enter `healing` again, so `healing` is visited exactly once. -/
theorem C2_healing_cycle (o : ExcOracle) (r1 r2 r3 : ℚ) (s : ProjectState) (patch : String)
    (hst : s.status = AgentStatus.compiling) (hit : s.iterationCount = 0)
    (hr : r1 < 3 / 10)
    (hp : o.patcher "src/App.tsx" ((fsGet? s.fileSystem "src/App.tsx").getD "")
      patchErrorText = Except.ok patch) :
    (appStep o r1 s).status = AgentStatus.healing ∧
    (appStep o r2 (appStep o r1 s)).status = AgentStatus.compiling ∧
    (appStep o r2 (appStep o r1 s)).iterationCount = 1 ∧
    (appStep o r3 (appStep o r2 (appStep o r1 s))).status = AgentStatus.ready ∧
    (appStep o r3 (appStep o r2 (appStep o r1 s))).iterationCount = 1 ∧
    (∀ (o2 : ExcOracle) (r : ℚ) (t : ProjectState), 1 ≤ t.iterationCount →
      (appStep o2 r t).status ≠ AgentStatus.healing) := by
  have e1 : appStep o r1 s =
      { s with
        status := AgentStatus.healing,
        terminalLogs := s.terminalLogs ++ [compilerStartLog, compilerFailLog] } := by
    have h : appStep o r1 s = runCompiler r1 s := by
      simp [appStep, hst]
    rw [h]
    simp [runCompiler, hit, hr]
  have e2 : appStep o r2 (appStep o r1 s) =
      { s with
        fileSystem := fsSet s.fileSystem "src/App.tsx" patch,
        status := AgentStatus.compiling,
        iterationCount := s.iterationCount + 1,
        terminalLogs := s.terminalLogs ++ [compilerStartLog, compilerFailLog,
          patcherStartLog, "Patcher: Applied mutations to src/App.tsx. Retrying build."] } := by
    rw [e1]
    have h : appStep o r2
        { s with
          status := AgentStatus.healing,
          terminalLogs := s.terminalLogs ++ [compilerStartLog, compilerFailLog] } =
        runPatcher o
        { s with
          status := AgentStatus.healing,
          terminalLogs := s.terminalLogs ++ [compilerStartLog, compilerFailLog] } := by
      simp [appStep]
    rw [h]
    simp [runPatcher, hp]
  have hlt1 : ¬(s.iterationCount + 1 < 1) := by omega
  refine ⟨?_, ?_, ?_, ?_, ?_, ?_⟩
  · rw [e1]
  · rw [e2]
  · rw [e2]
    simp [hit]
  · rw [e2]
    simp [appStep, runCompiler, hlt1]
  · rw [e2]
    simp [appStep, runCompiler, hlt1, hit]
  intro o2 r t ht
  rcases t with ⟨up, tsrs, tplan, tds, tfs, tcf, tst, tit, tlogs, tres, thist, tsel, tar, tip⟩
  replace ht : 1 ≤ tit := ht
  cases tst
  case idle => simp [appStep]
  case managing => simp [appStep]
  case planning =>
    simp only [appStep, runPlanner]
    split <;> simp
  case designing =>
    simp only [appStep, runDesigner]
    split
    · simp
    · split <;> simp
  case architecting =>
    simp only [appStep, runArchitect]
    split <;> simp
  case coding =>
    simp only [appStep, runCoder]
    split
    · split <;> simp
    · simp
  case reviewing => simp [appStep]
  case plugging => simp [appStep]
  case compiling =>
    simp only [appStep, runCompiler]
    split
    · rename_i hcond2
      exact absurd hcond2.2 (by omega)
    · simp
  case healing =>
    simp only [appStep, runPatcher]
    split <;> simp
  case ready => simp [appStep]
  case error => simp [appStep]

/-- Concrete state in `compiling` with a fresh iteration counter, used by
the C2 witness. -/
def exCompiling : ProjectState :=
  { userPrompt := "todo app", srs := some "srs text", plan := some exPlan,
    designSystem := some exDesign,
    fileSystem := [("src/App.tsx", "// code"), ("src/lib/mockData.ts", "// data")],
    currentFile := some "src/App.tsx", status := AgentStatus.compiling,
    iterationCount := 0, terminalLogs := [], resources := ⟨0, 0, 0, []⟩,
    history := [], selectedHistoryId := none, activeReview := none,
    installedPlugins := [] }

/-- Concrete fallible oracle whose every request resolves. -/
def okOracle : ExcOracle :=
  { manager := fun _ => Except.ok "srs text",
    planner := fun _ => Except.ok exPlan,
    designer := fun _ _ => Except.ok exDesign,
    coder := fun f _ _ _ => Except.ok ("// code for " ++ f),
    reviewer := fun _ _ => Except.ok exReport,
    plugin := fun _ _ _ => Except.ok ⟨[], []⟩,
    patcher := fun _ _ _ => Except.ok "patched",
    genId := fun k => "id-" ++ toString k,
    now := fun k => k }

/-- Witness for C2 at a concrete oracle, draws and state. -/
theorem C2_healing_cycle_witness :
    (exCompiling.status = AgentStatus.compiling ∧ exCompiling.iterationCount = 0 ∧
      (0 : ℚ) < 3 / 10 ∧
      okOracle.patcher "src/App.tsx"
        ((fsGet? exCompiling.fileSystem "src/App.tsx").getD "") patchErrorText =
        Except.ok "patched") ∧
    (appStep okOracle 0 exCompiling).status = AgentStatus.healing ∧
    (appStep okOracle 0 (appStep okOracle 0 exCompiling)).iterationCount = 1 :=
  ⟨⟨rfl, rfl, by norm_num, rfl⟩,
   (C2_healing_cycle okOracle 0 0 0 exCompiling "patched" rfl rfl (by norm_num) rfl).1,
   (C2_healing_cycle okOracle 0 0 0 exCompiling "patched" rfl rfl
     (by norm_num) rfl).2.2.1⟩

/-- The part_004 per-file coding loop with a fallible coder (this variant
logs nothing per file): accumulates the file system and the `currentFile`
cursor, stopping at the first rejected request. -/
def codeLoopExc4 (coder : String → Plan → DesignSystem → FS → Except String String)
    (plan : Plan) (design : DesignSystem) (staleFs : FS) :
    List String → FS → Option String → FS × Option String × Option String
  | [], fs, cur => (fs, cur, none)
  | f :: rest, fs, _ =>
    match coder f plan design staleFs with
    | Except.error e => (fs, some f, some e)
    | Except.ok code =>
      codeLoopExc4 coder plan design staleFs rest (fsSet fs f code) (some f)

/-- The part_004 post-coding hook loop with fallible plugin calls; the log
line is appended before the request, so it survives a rejection. The Bool
reports whether a request rejected (aborting the loop). -/
def hookLoopExc (pl : NeuralPlugin → FS → DesignSystem → Except String PluginResult)
    (staleFs : FS) (design : DesignSystem) :
    List NeuralPlugin → FS → List String → FS × List String × Bool
  | [], fs, logs => (fs, logs, false)
  | p :: rest, fs, logs =>
    let logs1 := logs ++ [lifecycleLog p]
    match pl p staleFs design with
    | Except.error _ => (fs, logs1, true)
    | Except.ok result =>
      hookLoopExc pl staleFs design rest (applyMutations fs result.mutations) logs1

/-- The part_004 post-audit hook loop with fallible plugin calls. -/
def auditLoopExc (pl : NeuralPlugin → FS → DesignSystem → Except String PluginResult)
    (staleFs : FS) (design : DesignSystem) :
    List NeuralPlugin → List ReviewComment → List String →
      List ReviewComment × List String × Bool
  | [], cs, logs => (cs, logs, false)
  | p :: rest, cs, logs =>
    let logs1 := logs ++ [auditLog p]
    match pl p staleFs design with
    | Except.error _ => (cs, logs1, true)
    | Except.ok result =>
      auditLoopExc pl staleFs design rest (cs ++ result.comments) logs1

/-- The part_004 `executeCycle` with fallible requests. The effect body has
no try/catch: a rejected request aborts the async function as an unhandled
rejection, so the state updates already queued remain, the ones after the
failure never run, and no branch ever sets `status = error`. As in the
total embedding, the non-null assertions `plan!` and `designSystem!` are
modelled by defaults: the pipeline reaches those branches only after the
fields are set. -/
def executeCycle4Exc (o : ExcOracle) (k : Nat) (s : ProjectState) : ProjectState :=
  match s.status with
  | AgentStatus.managing =>
    match o.manager s.userPrompt with
    | Except.error _ => s
    | Except.ok srs => { s with srs := some srs, status := AgentStatus.planning }
  | AgentStatus.planning =>
    match o.planner (s.srs.getD "") with
    | Except.error _ => s
    | Except.ok plan => { s with plan := some plan, status := AgentStatus.designing }
  | AgentStatus.designing =>
    match o.designer s.userPrompt (s.plan.getD emptyPlan).features with
    | Except.error _ => s
    | Except.ok design =>
      { s with designSystem := some design, status := AgentStatus.architecting }
  | AgentStatus.architecting =>
    { s with
      fileSystem := (s.plan.getD emptyPlan).files.foldl
        (fun fs f => fsSet fs f "// Initializing...") [],
      status := AgentStatus.coding }
  | AgentStatus.coding =>
    let plan := s.plan.getD emptyPlan
    let design := s.designSystem.getD emptyDesign
    match codeLoopExc4 o.coder plan design s.fileSystem (fsKeys s.fileSystem)
      s.fileSystem s.currentFile with
    | (fs1, cur1, some _) => { s with fileSystem := fs1, currentFile := cur1 }
    | (fs1, cur1, none) =>
      match hookLoopExc o.plugin s.fileSystem design
        (s.installedPlugins.filter
          (fun p => p.enabled && p.hook == LifecycleHook.postCoding))
        fs1 s.terminalLogs with
      | (fs2, logs2, true) =>
        { s with fileSystem := fs2, currentFile := cur1, terminalLogs := logs2 }
      | (fs2, logs2, false) =>
        { s with
          fileSystem := fs2, currentFile := cur1, terminalLogs := logs2,
          status := AgentStatus.reviewing }
  | AgentStatus.reviewing =>
    let design := s.designSystem.getD emptyDesign
    match o.reviewer s.fileSystem design with
    | Except.error _ => s
    | Except.ok review =>
      match auditLoopExc o.plugin s.fileSystem design
        (s.installedPlugins.filter
          (fun p => p.enabled && p.hook == LifecycleHook.postAudit))
        review.comments s.terminalLogs with
      | (_, logs2, true) => { s with terminalLogs := logs2 }
      | (cs2, logs2, false) =>
        { s with
          activeReview := some { review with comments := cs2 },
          terminalLogs := logs2, status := AgentStatus.compiling }
  | AgentStatus.compiling =>
    { captureSnapshot (o.genId k) (o.now k) "Neural Deployment Ready" s with
      status := AgentStatus.ready }
  | _ => s

/-- The part_002 `executeCycle` (lines 565-620) with fallible requests.
Like part_004 it has no try/catch: a rejected request aborts the async
function, keeping the state updates already queued (in the reviewing
branch the `> Running Neural Auditor...` log is appended before the
request, so it survives a rejection) and skipping the stage snapshot and
the status transition; no branch ever sets `status = error`. The per-file
coding loop of this variant logs nothing per file, so it shares
`codeLoopExc4`. -/
def executeCycle2Exc (o : ExcOracle) (k : Nat) (s : ProjectState) : ProjectState :=
  match s.status with
  | AgentStatus.managing =>
    match o.manager s.userPrompt with
    | Except.error _ => s
    | Except.ok srs =>
      captureSnapshot (o.genId k) (o.now k) "SRS Created"
        { s with srs := some srs, status := AgentStatus.planning }
  | AgentStatus.planning =>
    match o.planner (s.srs.getD "") with
    | Except.error _ => s
    | Except.ok plan =>
      captureSnapshot (o.genId k) (o.now k) "Plan Finalized"
        { s with plan := some plan, status := AgentStatus.designing }
  | AgentStatus.designing =>
    match o.designer s.userPrompt (s.plan.getD emptyPlan).features with
    | Except.error _ => s
    | Except.ok design =>
      captureSnapshot (o.genId k) (o.now k) "Design Seeded"
        { s with designSystem := some design, status := AgentStatus.architecting }
  | AgentStatus.architecting =>
    captureSnapshot (o.genId k) (o.now k) "FS Scaffolding"
      { s with
        fileSystem := (s.plan.getD emptyPlan).files.foldl
          (fun fs f => fsSet fs f "// Initializing...") [],
        status := AgentStatus.coding }
  | AgentStatus.coding =>
    let plan := s.plan.getD emptyPlan
    let design := s.designSystem.getD emptyDesign
    match codeLoopExc4 o.coder plan design s.fileSystem (fsKeys s.fileSystem)
      s.fileSystem s.currentFile with
    | (fs1, cur1, some _) => { s with fileSystem := fs1, currentFile := cur1 }
    | (fs1, cur1, none) =>
      captureSnapshot (o.genId k) (o.now k) "Implementation Complete"
        { s with
          fileSystem := fs1, currentFile := cur1, status := AgentStatus.reviewing }
  | AgentStatus.reviewing =>
    let s1 := { s with
      terminalLogs := s.terminalLogs ++ ["> Running Neural Auditor..."] }
    match o.reviewer s.fileSystem (s.designSystem.getD emptyDesign) with
    | Except.error _ => s1
    | Except.ok review =>
      captureSnapshot (o.genId k) (o.now k) "Neural Audit Complete"
        { s1 with activeReview := some review, status := AgentStatus.compiling }
  | AgentStatus.compiling =>
    captureSnapshot (o.genId k) (o.now k) "Ready for Deployment"
      { s with status := AgentStatus.ready }
  | _ => s

/-- Fallible oracle whose every request rejects. -/
def failOracle : ExcOracle :=
  { manager := fun _ => Except.error "NetworkError",
    planner := fun _ => Except.error "NetworkError",
    designer := fun _ _ => Except.error "NetworkError",
    coder := fun _ _ _ _ => Except.error "NetworkError",
    reviewer := fun _ _ => Except.error "NetworkError",
    plugin := fun _ _ _ => Except.error "NetworkError",
    patcher := fun _ _ _ => Except.error "NetworkError",
    genId := fun k => "id-" ++ toString k,
    now := fun k => k }

/-- Concrete mid-run state in `managing`. -/
def exManaging : ProjectState :=
  { userPrompt := "todo app", fileSystem := [], status := AgentStatus.managing,
    iterationCount := 0, terminalLogs := ["> New Project: \"todo app\""],
    installedPlugins := defaultPlugins }

/-- C3 counterexample: in the part_004 `executeCycle` a rejected manager
request leaves the state exactly as it was: the status stays `managing`,
which is not `error`, and no log line is appended. -/
theorem C3_counterexample :
    executeCycle4Exc failOracle 0 exManaging = exManaging ∧
    exManaging.status = AgentStatus.managing ∧
    AgentStatus.managing ≠ AgentStatus.error :=
  ⟨rfl, rfl, by decide⟩

/-- A rejection at any position of the App.tsx coding loop: if the coder
resolves on every file of a prefix and rejects on the next file, the loop
reports that error. -/
theorem codeLoopExcV1_append_error
    (coder : String → Plan → DesignSystem → FS → Except String String)
    (plan : Plan) (design : DesignSystem) (staleFs : FS) (f : String) (e : String)
    (hf : coder f plan design staleFs = Except.error e) :
    ∀ (pre : List String), ∀ (rest : List String) (fs : FS) (cur : Option String)
      (logs : List String),
      (∀ g ∈ pre, ∃ c, coder g plan design staleFs = Except.ok c) →
      (codeLoopExcV1 coder plan design staleFs (pre ++ f :: rest) fs cur logs).2.2.2 =
        some e := by
  intro pre
  induction pre with
  | nil =>
    intro rest fs cur logs _
    simp [codeLoopExcV1, hf]
  | cons g pre ih =>
    intro rest fs cur logs hpre
    obtain ⟨c, hc⟩ := hpre g (List.mem_cons_self g pre)
    have hrest : ∀ g2 ∈ pre, ∃ c2, coder g2 plan design staleFs = Except.ok c2 :=
      fun g2 hg2 => hpre g2 (List.mem_cons_of_mem g hg2)
    simp only [List.cons_append, codeLoopExcV1, hc]
    exact ih rest (fsSet fs g c) (some g)
      (logs ++ ["Coder: Implementing " ++ g ++ "..."]) hrest

/-- C3 (amended): in the App.tsx per-stage handlers, a rejected request in
any stage that makes one (planner, designer, coder at any position of the
file loop, patcher) is caught, setting `status = error` and appending an
`Error in <stage>` log line, and a state in `error` fires no handler at
all (no retry); but in the part_002 and part_004 `executeCycle` variants
stage errors are uncaught: no reaction can set the status to `error`, the
run stalls in its current stage keeping whatever partial updates the
stage had already applied. When the rejected request was the stage's
first action the state is completely unchanged (managing, planning and
designing in part_004; managing in part_002), while a mid-stage rejection
keeps the earlier updates (part_002's reviewing keeps its pre-request log
line). -/
theorem C3_error_handling (o : ExcOracle) (r : ℚ) (s : ProjectState) (e : String) :
    (s.status = AgentStatus.planning → o.planner s.userPrompt = Except.error e →
      (appStep o r s).status = AgentStatus.error ∧
      (appStep o r s).terminalLogs = s.terminalLogs ++
        ["Planner: Analyzing intent and creating engineering blueprint...",
         errMsg "Planner" e]) ∧
    (∀ plan, s.status = AgentStatus.designing → s.plan = some plan →
      o.designer s.userPrompt plan.features = Except.error e →
      (appStep o r s).status = AgentStatus.error ∧
      (appStep o r s).terminalLogs = s.terminalLogs ++
        ["Designer: Establishing design tokens and accessibility compliance...",
         errMsg "Designer" e]) ∧
    (∀ plan design pre f rest, s.status = AgentStatus.coding → s.plan = some plan →
      s.designSystem = some design → fsKeys s.fileSystem = pre ++ f :: rest →
      (∀ g ∈ pre, ∃ c, o.coder g plan design s.fileSystem = Except.ok c) →
      o.coder f plan design s.fileSystem = Except.error e →
      (appStep o r s).status = AgentStatus.error) ∧
    (s.status = AgentStatus.healing →
      o.patcher "src/App.tsx" ((fsGet? s.fileSystem "src/App.tsx").getD "")
        patchErrorText = Except.error e →
      (appStep o r s).status = AgentStatus.error ∧
      (appStep o r s).terminalLogs = s.terminalLogs ++
        [patcherStartLog, errMsg "Patcher" e]) ∧
    (s.status = AgentStatus.error → appStep o r s = s) ∧
    (∀ (o4 : ExcOracle) (k : Nat) (t : ProjectState), t.status ≠ AgentStatus.error →
      (executeCycle4Exc o4 k t).status ≠ AgentStatus.error) ∧
    (∀ (o2 : ExcOracle) (k : Nat) (t : ProjectState), t.status ≠ AgentStatus.error →
      (executeCycle2Exc o2 k t).status ≠ AgentStatus.error) ∧
    (∀ (o4 : ExcOracle) (k : Nat) (t : ProjectState) (e2 : String),
      (t.status = AgentStatus.managing → o4.manager t.userPrompt = Except.error e2 →
        executeCycle4Exc o4 k t = t) ∧
      (t.status = AgentStatus.planning → o4.planner (t.srs.getD "") = Except.error e2 →
        executeCycle4Exc o4 k t = t) ∧
      (t.status = AgentStatus.designing →
        o4.designer t.userPrompt (t.plan.getD emptyPlan).features = Except.error e2 →
        executeCycle4Exc o4 k t = t)) ∧
    (∀ (o2 : ExcOracle) (k : Nat) (t : ProjectState) (e2 : String),
      (t.status = AgentStatus.managing → o2.manager t.userPrompt = Except.error e2 →
        executeCycle2Exc o2 k t = t) ∧
      (t.status = AgentStatus.reviewing →
        o2.reviewer t.fileSystem (t.designSystem.getD emptyDesign) = Except.error e2 →
        executeCycle2Exc o2 k t =
          { t with terminalLogs := t.terminalLogs ++ ["> Running Neural Auditor..."] })) := by
  refine ⟨?_, ?_, ?_, ?_, ?_, ?_, ?_, ?_, ?_⟩
  · intro h1 h2
    constructor
    · simp [appStep, h1, runPlanner, h2]
    · simp [appStep, h1, runPlanner, h2]
  · intro plan h1 hpl h2
    constructor
    · simp [appStep, h1, runDesigner, hpl, h2]
    · simp [appStep, h1, runDesigner, hpl, h2]
  · intro plan design pre f rest h1 hpl hds hkeys hpre h2
    have herr := codeLoopExcV1_append_error o.coder plan design s.fileSystem f e h2
      pre rest s.fileSystem s.currentFile s.terminalLogs hpre
    rcases htup : codeLoopExcV1 o.coder plan design s.fileSystem (pre ++ f :: rest)
      s.fileSystem s.currentFile s.terminalLogs with ⟨fs1, cur1, logs1, err⟩
    rw [htup] at herr
    replace herr : err = some e := herr
    subst herr
    simp [appStep, h1, runCoder, hpl, hds, hkeys, htup]
  · intro h1 h2
    constructor
    · simp [appStep, h1, runPatcher, h2]
    · simp [appStep, h1, runPatcher, h2]
  · intro h1
    simp [appStep, h1]
  · intro o4 k t ht
    rcases t with ⟨up, tsrs, tplan, tds, tfs, tcf, tst, tit, tlogs, tres, thist, tsel, tar, tip⟩
    cases tst
    case idle => simp [executeCycle4Exc]
    case managing =>
      simp only [executeCycle4Exc]
      split <;> simp
    case planning =>
      simp only [executeCycle4Exc]
      split <;> simp
    case designing =>
      simp only [executeCycle4Exc]
      split <;> simp
    case architecting => simp [executeCycle4Exc]
    case coding =>
      simp only [executeCycle4Exc]
      split
      · simp
      · split <;> simp
    case reviewing =>
      simp only [executeCycle4Exc]
      split
      · simp
      · split <;> simp
    case plugging => simp [executeCycle4Exc]
    case compiling => simp [executeCycle4Exc, captureSnapshot]
    case healing => simp [executeCycle4Exc]
    case ready => simp [executeCycle4Exc]
    case error => exact absurd rfl ht
  · intro o2 k t ht
    rcases t with ⟨up, tsrs, tplan, tds, tfs, tcf, tst, tit, tlogs, tres, thist, tsel, tar, tip⟩
    cases tst
    case idle => simp [executeCycle2Exc]
    case managing =>
      simp only [executeCycle2Exc]
      split <;> simp [captureSnapshot]
    case planning =>
      simp only [executeCycle2Exc]
      split <;> simp [captureSnapshot]
    case designing =>
      simp only [executeCycle2Exc]
      split <;> simp [captureSnapshot]
    case architecting => simp [executeCycle2Exc, captureSnapshot]
    case coding =>
      simp only [executeCycle2Exc]
      split <;> simp [captureSnapshot]
    case reviewing =>
      simp only [executeCycle2Exc]
      split <;> simp [captureSnapshot]
    case plugging => simp [executeCycle2Exc]
    case compiling => simp [executeCycle2Exc, captureSnapshot]
    case healing => simp [executeCycle2Exc]
    case ready => simp [executeCycle2Exc]
    case error => exact absurd rfl ht
  · intro o4 k t e2
    refine ⟨?_, ?_, ?_⟩
    · intro h1 h2
      simp [executeCycle4Exc, h1, h2]
    · intro h1 h2
      simp [executeCycle4Exc, h1, h2]
    · intro h1 h2
      simp [executeCycle4Exc, h1, h2]
  · intro o2 k t e2
    refine ⟨?_, ?_⟩
    · intro h1 h2
      simp [executeCycle2Exc, h1, h2]
    · intro h1 h2
      simp [executeCycle2Exc, h1, h2]

/-- Concrete mid-run state in `planning`. -/
def exPlanning : ProjectState :=
  { userPrompt := "todo app", srs := some "srs text", fileSystem := [],
    status := AgentStatus.planning, iterationCount := 0, terminalLogs := [] }

/-- Witness for the amended C3: a rejected planner request in the App.tsx
handler halts the run with `status = error`. -/
theorem C3_error_handling_witness :
    (exPlanning.status = AgentStatus.planning ∧
      failOracle.planner exPlanning.userPrompt = Except.error "NetworkError") ∧
    (appStep failOracle 0 exPlanning).status = AgentStatus.error :=
  ⟨⟨rfl, rfl⟩, ((C3_error_handling failOracle 0 exPlanning "NetworkError").1 rfl rfl).1⟩

/-- `handleRollback` of part_002 (lines 473-486): looks the snapshot up by
id (a missing id is a no-op), copies the snapshot file system back, takes
the snapshot design system only when the snapshot stored one (otherwise
the live one is kept, mirroring the `snap.designSystem ? ... : 
prev.designSystem` truthiness test), restores the review report, forces
`status = ready`, appends a log line and leaves snapshot mode; `history`
itself is untouched. -/
def handleRollback (sid : String) (s : ProjectState) : ProjectState :=
  match s.history.find? (fun sn => sn.id == sid) with
  | none => s
  | some snap =>
    { s with
      fileSystem := snap.fileSystem,
      designSystem := match snap.designSystem with
        | some d => some d
        | none => s.designSystem,
      status := AgentStatus.ready,
      terminalLogs := s.terminalLogs ++ ["> Restored to checkpoint: " ++ snap.label],
      activeReview := snap.reviewReport,
      selectedHistoryId := none }

theorem rollback_found_spec (s : ProjectState) (sid : String) (snap : HistorySnapshot)
    (h : s.history.find? (fun sn => sn.id == sid) = some snap) :
    (handleRollback sid s).fileSystem = snap.fileSystem ∧
    (handleRollback sid s).designSystem =
      (match snap.designSystem with
       | some d => some d
       | none => s.designSystem) ∧
    (handleRollback sid s).activeReview = snap.reviewReport ∧
    (handleRollback sid s).status = AgentStatus.ready ∧
    (handleRollback sid s).terminalLogs =
      s.terminalLogs ++ ["> Restored to checkpoint: " ++ snap.label] ∧
    (handleRollback sid s).selectedHistoryId = none ∧
    (handleRollback sid s).history = s.history := by
  simp [handleRollback, h]

/-- C5 (amended): for a snapshot found in history, rollback copies the
snapshot file system and review report into live state, copies the
snapshot design system only when the snapshot stored one (otherwise the
live design system is kept), forces `status = ready`, appends one log
line, clears `selectedHistoryId` (exiting snapshot mode) and leaves the
history list itself unchanged. -/
theorem C5_rollback (s : ProjectState) (sid : String) (snap : HistorySnapshot)
    (h : s.history.find? (fun sn => sn.id == sid) = some snap) :
    (handleRollback sid s).fileSystem = snap.fileSystem ∧
    (handleRollback sid s).designSystem =
      (match snap.designSystem with
       | some d => some d
       | none => s.designSystem) ∧
    (handleRollback sid s).activeReview = snap.reviewReport ∧
    (handleRollback sid s).status = AgentStatus.ready ∧
    (handleRollback sid s).terminalLogs =
      s.terminalLogs ++ ["> Restored to checkpoint: " ++ snap.label] ∧
    (handleRollback sid s).selectedHistoryId = none ∧
    (handleRollback sid s).history = s.history :=
  rollback_found_spec s sid snap h

/-- Snapshot captured before the designer stage ran: it stores no design
system (part_002 captures such snapshots at the managing and planning
milestones). -/
def exSnapNoDesign : HistorySnapshot :=
  { id := "s1", timestamp := 0, label := "SRS Created",
    status := AgentStatus.planning, fileSystem := [], designSystem := none,
    terminalLogs := [], reviewReport := none }

/-- Live state holding that snapshot plus a live design system. -/
def exState5 : ProjectState :=
  { userPrompt := "todo app", designSystem := some exDesign,
    fileSystem := [("src/App.tsx", "// code")], status := AgentStatus.ready,
    iterationCount := 0, terminalLogs := [], history := [exSnapNoDesign] }

/-- C5 counterexample: rolling back to a snapshot that stored no design
system does not copy the snapshot design system into live state: the live
design system survives, differing from the snapshot copy. -/
theorem C5_counterexample :
    exState5.history.find? (fun sn => sn.id == "s1") = some exSnapNoDesign ∧
    exSnapNoDesign.designSystem = none ∧
    (handleRollback "s1" exState5).designSystem = some exDesign ∧
    (handleRollback "s1" exState5).designSystem ≠ exSnapNoDesign.designSystem := by
  refine ⟨rfl, rfl, rfl, ?_⟩
  decide

/-- Witness for the amended C5 at the concrete state. -/
theorem C5_rollback_witness :
    exState5.history.find? (fun sn => sn.id == "s1") = some exSnapNoDesign ∧
    (handleRollback "s1" exState5).status = AgentStatus.ready ∧
    (handleRollback "s1" exState5).history = exState5.history :=
  ⟨rfl, (C5_rollback exState5 "s1" exSnapNoDesign rfl).2.2.2.1,
    (C5_rollback exState5 "s1" exSnapNoDesign rfl).2.2.2.2.2.2⟩

/-- C6: rollback to a snapshot present in history is idempotent on the
live file system and design system, and never decreases the length of
history (it leaves history exactly as it was). -/
theorem C6_rollback_idempotent (s : ProjectState) (sid : String)
    (h : (s.history.find? (fun sn => sn.id == sid)).isSome) :
    (handleRollback sid (handleRollback sid s)).fileSystem =
      (handleRollback sid s).fileSystem ∧
    (handleRollback sid (handleRollback sid s)).designSystem =
      (handleRollback sid s).designSystem ∧
    s.history.length ≤ (handleRollback sid s).history.length := by
  obtain ⟨snap, hsnap⟩ := Option.isSome_iff_exists.mp h
  obtain ⟨hfs1, hds1, -, -, -, -, hh1⟩ := rollback_found_spec s sid snap hsnap
  have hfind2 : (handleRollback sid s).history.find? (fun sn => sn.id == sid) =
      some snap := by
    rw [hh1]
    exact hsnap
  obtain ⟨hfs2, hds2, -, -, -, -, -⟩ :=
    rollback_found_spec (handleRollback sid s) sid snap hfind2
  refine ⟨?_, ?_, ?_⟩
  · rw [hfs2, hfs1]
  · rw [hds2]
    rcases hd : snap.designSystem with _ | d
    · simp [hd]
    · simp only [hd]
      rw [hds1]
      simp [hd]
  · simp [hh1]

/-- Witness for C6 at the concrete state. -/
theorem C6_rollback_idempotent_witness :
    (exState5.history.find? (fun sn => sn.id == "s1")).isSome ∧
    (handleRollback "s1" (handleRollback "s1" exState5)).fileSystem =
      (handleRollback "s1" exState5).fileSystem ∧
    exState5.history.length ≤ (handleRollback "s1" exState5).history.length :=
  ⟨rfl, (C6_rollback_idempotent exState5 "s1" rfl).1,
    (C6_rollback_idempotent exState5 "s1" rfl).2.2⟩

/-- C8: during the coding and reviewing completions of part_004, exactly
the installed plugins that are enabled and whose hook matches
(`post-coding`, `post-audit` respectively) are invoked, sequentially in
list order; every returned mutation merges into the file system by path
with last-writer-wins; returned comments append to the review comment list
in invocation order; and a disabled plugin is never invoked (its call
count is 0). -/
theorem C8_plugin_dispatch (po : NeuralPlugin → FS → DesignSystem → PluginResult)
    (plugins : List NeuralPlugin) (staleFs : FS) (design : DesignSystem)
    (fs0 : FS) (logs0 : List String) (cs0 : List ReviewComment) :
    (postCodingHook po plugins staleFs design fs0 logs0).2.2 =
      plugins.filter (fun p => p.enabled && p.hook == LifecycleHook.postCoding) ∧
    (postAuditHook po plugins staleFs design cs0 logs0).2.2 =
      plugins.filter (fun p => p.enabled && p.hook == LifecycleHook.postAudit) ∧
    (∀ k, fsGet? (postCodingHook po plugins staleFs design fs0 logs0).1 k =
      (match ((plugins.filter (fun p => p.enabled && p.hook == LifecycleHook.postCoding)).flatMap
          (fun p => (po p staleFs design).mutations)).reverse.find?
          (fun m => m.file == k) with
       | some m => some m.content
       | none => fsGet? fs0 k)) ∧
    ((postAuditHook po plugins staleFs design cs0 logs0).1 =
      cs0 ++ (plugins.filter (fun p => p.enabled && p.hook == LifecycleHook.postAudit)).flatMap
        (fun p => (po p staleFs design).comments)) ∧
    (∀ p, p.enabled = false →
      (postCodingHook po plugins staleFs design fs0 logs0).2.2.count p = 0 ∧
      (postAuditHook po plugins staleFs design cs0 logs0).2.2.count p = 0) := by
  have hc := runPostCodingLoop_spec po staleFs design
    (plugins.filter (fun p => p.enabled && p.hook == LifecycleHook.postCoding)) fs0 logs0
  have ha := runPostAuditLoop_spec po staleFs design
    (plugins.filter (fun p => p.enabled && p.hook == LifecycleHook.postAudit)) cs0 logs0
  refine ⟨?_, ?_, ?_, ?_, ?_⟩
  · simp only [postCodingHook, hc]
  · simp only [postAuditHook, ha]
  · intro k
    simp only [postCodingHook, hc]
    exact fsGet?_applyMutations fs0 _ k
  · simp only [postAuditHook, ha]
  · intro p hp
    have hmem : p ∉ plugins.filter (fun q => q.enabled && q.hook == LifecycleHook.postCoding) := by
      intro hmem
      have hq := List.of_mem_filter hmem
      simp [hp] at hq
    have hmem2 : p ∉ plugins.filter (fun q => q.enabled && q.hook == LifecycleHook.postAudit) := by
      intro hmem
      have hq := List.of_mem_filter hmem
      simp [hp] at hq
    constructor
    · simp only [postCodingHook, hc]
      exact List.count_eq_zero.mpr hmem
    · simp only [postAuditHook, ha]
      exact List.count_eq_zero.mpr hmem2

/-- An enabled post-coding plugin (the part_004 Scribe SEO entry, toggled
on). -/
def exCodingPlugin : NeuralPlugin :=
  { id := "scribe-seo", name := "Scribe SEO",
    description := "SEO optimization agent. Validates semantic HTML, meta tags, and alt text.",
    icon := "Globe", hook := LifecycleHook.postCoding, enabled := true,
    author := "Organic Reach Inc." }

/-- A disabled plugin (the part_004 Shield-6 entry as shipped). -/
def exDisabledPlugin : NeuralPlugin :=
  { id := "shield-6", name := "Shield-6",
    description := "Advanced security auditor. Checks for hardcoded keys and XSS vulnerabilities.",
    icon := "Shield", hook := LifecycleHook.postAudit, enabled := false,
    author := "Sentinel Labs" }

/-- Concrete plugin responses: Scribe SEO rewrites `src/App.tsx`. -/
def exPo : NeuralPlugin → FS → DesignSystem → PluginResult :=
  fun p _ _ =>
    if p.id = "scribe-seo" then ⟨[], [⟨"src/App.tsx", "// seo optimized"⟩]⟩ else ⟨[], []⟩

/-- Witness for C8 at a concrete plugin list: the enabled post-coding
plugin runs and its mutation lands in the file system; the disabled plugin
is never invoked. -/
theorem C8_plugin_dispatch_witness :
    (postCodingHook exPo [exCodingPlugin, exDisabledPlugin] [] exDesign [] []).2.2 =
      [exCodingPlugin] ∧
    fsGet? (postCodingHook exPo [exCodingPlugin, exDisabledPlugin] [] exDesign [] []).1
      "src/App.tsx" = some "// seo optimized" ∧
    exDisabledPlugin.enabled = false ∧
    (postCodingHook exPo [exCodingPlugin, exDisabledPlugin] [] exDesign [] []).2.2.count
      exDisabledPlugin = 0 := by
  have h := C8_plugin_dispatch exPo [exCodingPlugin, exDisabledPlugin] [] exDesign [] [] []
  refine ⟨?_, ?_, rfl, ?_⟩
  · rw [h.1]
    rfl
  · rw [h.2.2.1 "src/App.tsx"]
    rfl
  · exact (h.2.2.2.2 exDisabledPlugin rfl).1

/-- CPU target of one resource tick (part_002 lines 514-519): elevated
during the active coding/reviewing stages (65 plus up to 20 random),
baseline 1.5 otherwise; `r1` is the `Math.random()` draw of the tick. -/
def cpuTarget (st : AgentStatus) (r1 : ℚ) : ℚ :=
  if st = AgentStatus.coding ∨ st = AgentStatus.reviewing then 65 + r1 * 20 else 3 / 2

/-- One tick of the part_002 resource-simulation interval (lines 510-539):
cpu relaxes one tenth of the way toward the status-dependent target,
memory is a rounded file-count-dependent base plus jitter, vfsSize the
rounded summed content length over 1024, and the process list is fixed
plus a stage-specific name; `r1` and `r2` are the two `Math.random()`
draws of one tick. -/
def resourceTick (r1 r2 : ℚ) (s : ProjectState) : ProjectState :=
  let active := s.status = AgentStatus.coding ∨ s.status = AgentStatus.reviewing
  let target := cpuTarget s.status r1
  let memBase : ℚ := 120 + (s.fileSystem.length : ℚ) * 10 + (if active then 200 else 0)
  let procs := ["vfs", "node"] ++
    (if active then
      [if s.status = AgentStatus.coding then "gemini-coder" else "gemini-reviewer"]
     else [])
  let newCpu := s.resources.cpu + (target - s.resources.cpu) * (1 / 10)
  let vfs : ℚ := (s.fileSystem.map (fun p => (p.2.length : ℚ))).sum / 1024
  { s with resources :=
      { cpu := newCpu, memory := round (memBase + r2 * 5),
        vfsSize := round vfs, processes := procs } }

/-- A state in the `coding` stage with the part_002 default resource
values (cpu 1.2, memory 124, processes `init`). -/
def exTickState : ProjectState :=
  { userPrompt := "todo app", fileSystem := [], status := AgentStatus.coding,
    iterationCount := 0, terminalLogs := [], resources := ⟨6 / 5, 124, 0, ["init"]⟩ }

/-- Fourteen ticks during `coding` with the cpu-target draw maxed out
(`r1 = 1`, target 85). -/
def tickHigh : Nat → ProjectState
  | 0 => exTickState
  | n + 1 => resourceTick 1 0 (tickHigh n)

/-- The cpu values along `tickHigh`, as a pure rational recurrence. -/
def cpuSeq : Nat → ℚ
  | 0 => 6 / 5
  | n + 1 => cpuSeq n + (85 - cpuSeq n) * (1 / 10)

theorem resourceTick_status (r1 r2 : ℚ) (s : ProjectState) :
    (resourceTick r1 r2 s).status = s.status := rfl

theorem tickHigh_status (n : Nat) : (tickHigh n).status = AgentStatus.coding := by
  induction n with
  | zero => rfl
  | succ n ih =>
    show (resourceTick 1 0 (tickHigh n)).status = _
    rw [resourceTick_status, ih]

theorem tickHigh_cpu (n : Nat) : (tickHigh n).resources.cpu = cpuSeq n := by
  induction n with
  | zero => rfl
  | succ n ih =>
    have h : (tickHigh (n + 1)).resources.cpu =
        (tickHigh n).resources.cpu +
          (cpuTarget (tickHigh n).status 1 - (tickHigh n).resources.cpu) * (1 / 10) := rfl
    rw [h, tickHigh_status n, ih]
    simp [cpuTarget, cpuSeq]
    norm_num

/-- C9 counterexample: after fourteen ticks relaxing toward the maximal
in-stage target 85, the cpu value exceeds 65; the next tick draws
`r1 = 0`, making that tick target exactly 65, and the resulting cpu value
still exceeds the target of the very tick that produced it. -/
theorem C9_counterexample :
    cpuTarget (tickHigh 14).status 0 = 65 ∧
    (resourceTick 0 0 (tickHigh 14)).resources.cpu >
      cpuTarget (tickHigh 14).status 0 := by
  have ht : cpuTarget (tickHigh 14).status 0 = 65 := by
    rw [tickHigh_status]
    norm_num [cpuTarget]
  have hc : (resourceTick 0 0 (tickHigh 14)).resources.cpu =
      (tickHigh 14).resources.cpu +
        (cpuTarget (tickHigh 14).status 0 - (tickHigh 14).resources.cpu) * (1 / 10) := rfl
  refine ⟨ht, ?_⟩
  rw [hc, ht, tickHigh_cpu]
  have h14 : cpuSeq 14 > 65 := by norm_num [cpuSeq]
  linarith

/-- C9 (amended): a resource tick keeps cpu and memory non-negative (for
non-negative draws and cpu), moves cpu toward the status-dependent target
by exactly the fixed smoothing factor (the distance to the target
contracts by 9/10), and never overshoots the target from below; cpu can
however exceed the target of a tick when it starts above it, since the
target is re-drawn every tick and drops when the active stage ends. -/
theorem C9_resource_tick (r1 r2 : ℚ) (s : ProjectState)
    (hr1 : 0 ≤ r1) (hr2 : 0 ≤ r2) (hcpu : 0 ≤ s.resources.cpu) :
    0 ≤ (resourceTick r1 r2 s).resources.cpu ∧
    0 ≤ (resourceTick r1 r2 s).resources.memory ∧
    |(resourceTick r1 r2 s).resources.cpu - cpuTarget s.status r1| =
      (9 / 10) * |s.resources.cpu - cpuTarget s.status r1| ∧
    (s.resources.cpu ≤ cpuTarget s.status r1 →
      (resourceTick r1 r2 s).resources.cpu ≤ cpuTarget s.status r1) := by
  have htarget : 0 ≤ cpuTarget s.status r1 := by
    unfold cpuTarget
    split
    · nlinarith
    · norm_num
  have hcpueq : (resourceTick r1 r2 s).resources.cpu =
      s.resources.cpu + (cpuTarget s.status r1 - s.resources.cpu) * (1 / 10) := rfl
  have hmemeq : (resourceTick r1 r2 s).resources.memory =
      round ((120 + (s.fileSystem.length : ℚ) * 10 +
        (if s.status = AgentStatus.coding ∨ s.status = AgentStatus.reviewing then
          (200 : ℚ) else 0)) + r2 * 5) := rfl
  refine ⟨?_, ?_, ?_, ?_⟩
  · rw [hcpueq]
    linarith
  · rw [hmemeq, round_eq]
    have hlen : (0 : ℚ) ≤ (s.fileSystem.length : ℚ) := by positivity
    refine Int.le_floor.mpr ?_
    push_cast
    split_ifs <;> linarith
  · rw [hcpueq]
    have harith : s.resources.cpu + (cpuTarget s.status r1 - s.resources.cpu) * (1 / 10) -
        cpuTarget s.status r1 = (9 / 10) * (s.resources.cpu - cpuTarget s.status r1) := by
      ring
    rw [harith, abs_mul, abs_of_pos (by norm_num : (0 : ℚ) < 9 / 10)]
  · intro hle
    rw [hcpueq]
    linarith

/-- Witness for the amended C9 at the concrete coding-stage state. -/
theorem C9_resource_tick_witness :
    ((0 : ℚ) ≤ 0 ∧ (0 : ℚ) ≤ exTickState.resources.cpu ∧
      exTickState.resources.cpu ≤ cpuTarget exTickState.status 0) ∧
    0 ≤ (resourceTick 0 0 exTickState).resources.cpu ∧
    (resourceTick 0 0 exTickState).resources.cpu ≤ cpuTarget exTickState.status 0 :=
  ⟨⟨le_refl 0, by norm_num [exTickState], by norm_num [exTickState, cpuTarget]⟩,
   (C9_resource_tick 0 0 exTickState (le_refl 0) (le_refl 0)
     (by norm_num [exTickState])).1,
   (C9_resource_tick 0 0 exTickState (le_refl 0) (le_refl 0)
     (by norm_num [exTickState])).2.2.2 (by norm_num [exTickState, cpuTarget])⟩

/-- `executePluginAgent` (`geminiService.ts` lines 310-355) as seen by the
caller: its prompt interpolates `design.metadata.styleVibe`, so an absent
design system throws a TypeError before any request goes out (`none`);
otherwise the oracle supplies the parsed plugin result. -/
def executePluginAgentCall (po : NeuralPlugin → FS → DesignSystem → PluginResult)
    (p : NeuralPlugin) (fs : FS) (design : Option DesignSystem) : Option PluginResult :=
  match design with
  | none => none
  | some d => some (po p fs d)

/-- `runPluginManually` of part_004 (lines 337-362): the first update sets
`status = plugging` and logs the trigger; then `executePluginAgent` is
awaited on the non-null-asserted `project.designSystem!`. When the design
system is absent that call throws, so the second update and the snapshot
never run and the state stays as after the first update; otherwise the
mutations merge into the file system, the comments extend the active
review (created fresh with score 100 when absent), the status becomes
`ready` and a labeled snapshot is captured. -/
def runPluginManually (po : NeuralPlugin → FS → DesignSystem → PluginResult)
    (gid : String) (ts : Nat) (p : NeuralPlugin) (s : ProjectState) : ProjectState :=
  let s1 := { s with
    status := AgentStatus.plugging,
    terminalLogs := s.terminalLogs ++ ["> Manually triggering plugin: " ++ p.name] }
  match executePluginAgentCall po p s.fileSystem s.designSystem with
  | none => s1
  | some result =>
    let newFS := applyMutations s1.fileSystem result.mutations
    let baseReview : ReviewReport :=
      match s1.activeReview with
      | some r => r
      | none => { id := "rev", timestamp := ts, overallScore := 100,
                  scores := ⟨100, 100, 100, 100⟩, comments := [] }
    let newReview := { baseReview with comments := baseReview.comments ++ result.comments }
    captureSnapshot gid ts ("Manual Run: " ++ p.name)
      { s1 with
        fileSystem := newFS, activeReview := some newReview,
        status := AgentStatus.ready,
        terminalLogs := s1.terminalLogs ++ ["> " ++ p.name ++ " execution finished."] }

/-- C10: `runPluginManually` has the unstated precondition that
`designSystem` is set. Without it the asserted call into
`executePluginAgent` throws on `design.metadata.styleVibe`: the final
update never executes and the status stays stuck at `plugging`, with only
the trigger log appended and the file system, review and history
untouched; with a design system present that error branch is unreachable
and the run finishes in `ready`. -/
theorem C10_manual_plugin_precondition
    (po : NeuralPlugin → FS → DesignSystem → PluginResult)
    (gid : String) (ts : Nat) (p : NeuralPlugin) (s : ProjectState) :
    (s.designSystem = none →
      (runPluginManually po gid ts p s).status = AgentStatus.plugging ∧
      (runPluginManually po gid ts p s).fileSystem = s.fileSystem ∧
      (runPluginManually po gid ts p s).activeReview = s.activeReview ∧
      (runPluginManually po gid ts p s).history = s.history ∧
      (runPluginManually po gid ts p s).terminalLogs =
        s.terminalLogs ++ ["> Manually triggering plugin: " ++ p.name]) ∧
    (∀ d, s.designSystem = some d →
      (runPluginManually po gid ts p s).status = AgentStatus.ready) := by
  constructor
  · intro h
    refine ⟨?_, ?_, ?_, ?_, ?_⟩ <;>
      simp [runPluginManually, executePluginAgentCall, h]
  · intro d h
    simp [runPluginManually, executePluginAgentCall, h, captureSnapshot]

/-- Concrete state with no design system (fresh session). -/
def exNoDesignState : ProjectState :=
  { userPrompt := "todo app", fileSystem := [], status := AgentStatus.ready,
    iterationCount := 0, terminalLogs := [] }

/-- Witness for C10: without a design system the manual run sticks at
`plugging`; with one it reaches `ready`. -/
theorem C10_manual_plugin_precondition_witness :
    (exNoDesignState.designSystem = none ∧
      (runPluginManually exPo "g1" 0 exCodingPlugin exNoDesignState).status =
        AgentStatus.plugging) ∧
    (exState5.designSystem = some exDesign ∧
      (runPluginManually exPo "g1" 0 exCodingPlugin exState5).status =
        AgentStatus.ready) :=
  ⟨⟨rfl, ((C10_manual_plugin_precondition exPo "g1" 0 exCodingPlugin
      exNoDesignState).1 rfl).1⟩,
   ⟨rfl, (C10_manual_plugin_precondition exPo "g1" 0 exCodingPlugin
      exState5).2 exDesign rfl⟩⟩

/-- A JS `DesignSystem` value as it lives on the heap: the top-level
object holds references to four nested objects. Spreading the top object
(`{ ...design }`) copies these references, not the nested objects. -/
structure DesignRefs where
  metadataRef : Nat
  colorsRef : Nat
  layoutRef : Nat
  typographyRef : Nat
deriving DecidableEq, Repr

/-- The nested design objects, addressed by reference. -/
structure ThemeHeap where
  metadataObjs : List (Nat × DesignMetadata)
  colorsObjs : List (Nat × DesignColors)
  layoutObjs : List (Nat × DesignLayout)
  typographyObjs : List (Nat × DesignTypography)
deriving DecidableEq, Repr

/-- Heap read through a reference. -/
def refGet? {α : Type} (objs : List (Nat × α)) (r : Nat) : Option α :=
  (objs.find? (fun q => q.1 == r)).map (fun q => q.2)

/-- In-place mutation of the object a reference points to. -/
def refSet {α : Type} (objs : List (Nat × α)) (r : Nat) (f : α → α) :
    List (Nat × α) :=
  objs.map (fun q => if q.1 = r then (q.1, f q.2) else q)

theorem refGet?_refSet_self {α : Type} (objs : List (Nat × α)) (r : Nat) (f : α → α) :
    refGet? (refSet objs r f) r = (refGet? objs r).map f := by
  induction objs with
  | nil => simp [refSet, refGet?]
  | cons q rest ih =>
    obtain ⟨r0, a0⟩ := q
    by_cases h : r0 = r
    · subst h
      simp [refSet, refGet?]
    · simpa [refSet, refGet?, h] using ih

/-- Nested-object field assignment, by field name. -/
def setColorsField (c : DesignColors) (field v : String) : DesignColors :=
  if field = "primary" then { c with primary := v }
  else if field = "accent" then { c with accent := v }
  else c

/-- Nested-object field assignment, by field name. -/
def setLayoutField (c : DesignLayout) (field v : String) : DesignLayout :=
  if field = "radius" then { c with radius := v }
  else if field = "spacing" then { c with spacing := v }
  else c

/-- Nested-object field assignment, by field name. -/
def setMetadataField (c : DesignMetadata) (field v : String) : DesignMetadata :=
  if field = "styleVibe" then { c with styleVibe := v }
  else c

/-- `ThemeLaboratory.handleChange` (part_002 lines 160-167):
`const newDesign = { ...design }` copies only the top-level object, that
is the four nested references; the loop then walks INTO the nested object
named by the first path segment and assigns its field IN PLACE, mutating
the heap object shared with every earlier snapshot. The five two-segment
paths the component passes are enumerated in place of the generic
split-and-walk. -/
def handleChange (h : ThemeHeap) (d : DesignRefs) (path v : String) :
    ThemeHeap × DesignRefs :=
  if path = "colors.primary" then
    ({ h with
        colorsObjs := refSet h.colorsObjs d.colorsRef
          (fun c => setColorsField c "primary" v) },
      d)
  else if path = "colors.accent" then
    ({ h with
        colorsObjs := refSet h.colorsObjs d.colorsRef
          (fun c => setColorsField c "accent" v) },
      d)
  else if path = "layout.radius" then
    ({ h with
        layoutObjs := refSet h.layoutObjs d.layoutRef
          (fun c => setLayoutField c "radius" v) },
      d)
  else if path = "layout.spacing" then
    ({ h with
        layoutObjs := refSet h.layoutObjs d.layoutRef
          (fun c => setLayoutField c "spacing" v) },
      d)
  else if path = "metadata.styleVibe" then
    ({ h with
        metadataObjs := refSet h.metadataObjs d.metadataRef
          (fun c => setMetadataField c "styleVibe" v) },
      d)
  else (h, d)

/-- Live React state relevant to snapshot independence: the heap of
nested design objects, the design reference, the file system (string
values, copied by value), the logs and the active review. -/
structure LiveState where
  heap : ThemeHeap
  designSystem : Option DesignRefs
  fileSystem : FS
  terminalLogs : List String
  activeReview : Option ReviewReport
deriving DecidableEq, Repr

/-- What part_002 `captureSnapshot` (lines 456-471) stores:
`{ ...prev.fileSystem }` and `[...prev.terminalLogs]` copy string values,
but `{ ...prev.designSystem }` copies only the nested references, and
`prev.activeReview || undefined` aliases the report object. -/
structure HeapSnapshot where
  designSystem : Option DesignRefs
  fileSystem : FS
  terminalLogs : List String
  reviewReport : Option ReviewReport
deriving DecidableEq, Repr

/-- The capture itself (reference semantics of the spreads above). -/
def captureSnapshotH (l : LiveState) : HeapSnapshot :=
  { designSystem := l.designSystem, fileSystem := l.fileSystem,
    terminalLogs := l.terminalLogs, reviewReport := l.activeReview }

/-- A theme-editor edit on the live state: `updateDesign` publishes the
top-level copy, the heap mutation having already happened in place. -/
def themeEdit (l : LiveState) (path v : String) : LiveState :=
  match l.designSystem with
  | none => l
  | some d =>
    let hd := handleChange l.heap d path v
    { l with heap := hd.1, designSystem := some hd.2 }

/-- An editor keystroke: `handleEditorChange` replaces the file-system
object (`{ ...prev.fileSystem, [file]: value }`), never mutating the old
one. -/
def editFileContent (l : LiveState) (f v : String) : LiveState :=
  { l with fileSystem := fsSet l.fileSystem f v }

/-- Reading the primary color of a snapshot design resolves its stored
references through the CURRENT heap. -/
def snapColorsPrimary? (h : ThemeHeap) (snap : HeapSnapshot) : Option String :=
  snap.designSystem.bind
    (fun d => (refGet? h.colorsObjs d.colorsRef).map (fun c => c.primary))

/-- A concrete heap laying out `exDesign` as four nested objects. -/
def exHeap : ThemeHeap :=
  { metadataObjs := [(0, exDesign.metadata)],
    colorsObjs := [(1, exDesign.colors)],
    layoutObjs := [(2, exDesign.layout)],
    typographyObjs := [(3, exDesign.typography)] }

/-- A concrete live state pointing at that heap. -/
def exLive : LiveState :=
  { heap := exHeap, designSystem := some ⟨0, 1, 2, 3⟩,
    fileSystem := [("src/App.tsx", "// code")],
    terminalLogs := ["boot"], activeReview := none }

/-- C4 counterexample: capture a snapshot, then change the primary color
through the theme editor. The snapshot shares the nested colors object,
so the snapshot stored copy now reads the new value, not the value it
held at capture time. -/
theorem C4_counterexample :
    snapColorsPrimary? exLive.heap (captureSnapshotH exLive) = some "#2563eb" ∧
    snapColorsPrimary? (themeEdit exLive "colors.primary" "#22c55e").heap
      (captureSnapshotH exLive) = some "#22c55e" ∧
    some "#22c55e" ≠ some "#2563eb" := by
  refine ⟨rfl, rfl, by decide⟩

/-- C4 (amended): the snapshot copies of `fileSystem` and `terminalLogs`
are value-independent (a later editor keystroke replaces the live
file-system object, so the snapshot still reads the capture-time
content), but `designSystem` is only shallow-copied and `activeReview`
aliased: a theme-editor edit of `colors.primary` after the capture
mutates the nested colors object the snapshot shares, so the snapshot
stored design reads the new value. -/
theorem C4_snapshot_shallow (l : LiveState) (f w v : String) (d : DesignRefs)
    (hd : l.designSystem = some d) (c : DesignColors)
    (hc : refGet? l.heap.colorsObjs d.colorsRef = some c) :
    fsGet? (captureSnapshotH l).fileSystem f = fsGet? l.fileSystem f ∧
    fsGet? (editFileContent l f w).fileSystem f = some w ∧
    (captureSnapshotH l).terminalLogs = l.terminalLogs ∧
    snapColorsPrimary? l.heap (captureSnapshotH l) = some c.primary ∧
    snapColorsPrimary? (themeEdit l "colors.primary" v).heap (captureSnapshotH l) =
      some v := by
  have hh : handleChange l.heap d "colors.primary" v =
      ({ l.heap with
          colorsObjs := refSet l.heap.colorsObjs d.colorsRef
            (fun c => setColorsField c "primary" v) },
        d) := by
    simp [handleChange]
  refine ⟨rfl, ?_, rfl, ?_, ?_⟩
  · exact fsGet?_fsSet_self l.fileSystem f w
  · simp [snapColorsPrimary?, captureSnapshotH, hd, hc]
  · simp [snapColorsPrimary?, captureSnapshotH, themeEdit, hd, hh,
      refGet?_refSet_self, hc, setColorsField]

/-- Witness for the amended C4 at the concrete live state. -/
theorem C4_snapshot_shallow_witness :
    (exLive.designSystem = some ⟨0, 1, 2, 3⟩ ∧
      refGet? exLive.heap.colorsObjs 1 = some exDesign.colors) ∧
    fsGet? (editFileContent exLive "src/App.tsx" "// edited").fileSystem
      "src/App.tsx" = some "// edited" ∧
    snapColorsPrimary? (themeEdit exLive "colors.primary" "#16a34a").heap
      (captureSnapshotH exLive) = some "#16a34a" :=
  ⟨⟨rfl, rfl⟩,
   (C4_snapshot_shallow exLive "src/App.tsx" "// edited" "#16a34a" ⟨0, 1, 2, 3⟩ rfl
     exDesign.colors rfl).2.1,
   (C4_snapshot_shallow exLive "src/App.tsx" "// edited" "#16a34a" ⟨0, 1, 2, 3⟩ rfl
     exDesign.colors rfl).2.2.2.2⟩
